import Mathlib

/-!
Verification development for the meeting-mind streaming ASR core
(`meeting_mind/app/services/asr_engine.py` and
`meeting_mind/app/core/lock_manager.py`).

The Python code is shallowly embedded:

* PCM byte buffers become `List Nat` (one element per byte; byte values are
  irrelevant to the segmentation logic, only positions and lengths matter).
* Python `int` arithmetic becomes `ℤ`, millisecond timestamps (Python floats
  whose values here are always exact dyadic rationals: divisions are only by
  32 and 1000-free paths) become `ℚ`, and speaker-embedding vectors
  (`numpy` float arrays) become `Fin n → ℝ`.
* The external models (VAD, ASR, punctuation, speaker embedding, noise
  reduction, gender pitch heuristic) are oracles: they enter as function
  parameters.  The ASR oracle is taken to already include the
  `re.sub(r"<\|.*?\|>", ...)` sanitization, which only transforms the text
  and never affects control flow beyond emptiness.
* `time.time()` reads become explicit `ℚ` parameters (`now`, `nowTs`,
  `nowFinal` for the three distinct call sites).
* The per-model continuation caches (`"asr"`, `"vad"`, `"punc"` entries of a
  session's cache) are opaque oracle state; they are not modelled, the VAD
  output for the chunk is instead passed directly as a parameter.
-/

namespace MeetingMind

/-! ## Python slicing semantics

`buf[s:e]` and `del buf[:e]` in Python normalise possibly negative slice
indices by adding `len` and clamping into `[0, len]`.  The segmentation code
can genuinely reach negative `end_byte` values, so this is modelled exactly. -/

/-- Python slice-index normalisation: negative indices count from the end,
then the result is clamped into `[0, len]`. -/
def pySliceIdx (len : ℕ) (i : ℤ) : ℕ :=
  if i < 0 then ((len : ℤ) + i).toNat else min i.toNat len

/-- Python `buf[s:e]`. -/
def pySlice {α : Type} (l : List α) (s e : ℤ) : List α :=
  (l.take (pySliceIdx l.length e)).drop (pySliceIdx l.length s)

/-- Python `buf[s:]`. -/
def pySliceFrom {α : Type} (l : List α) (s : ℤ) : List α :=
  l.drop (pySliceIdx l.length s)

/-- Python `del buf[:e]` (what remains of the buffer afterwards). -/
def pyDropTo {α : Type} (l : List α) (e : ℤ) : List α :=
  l.drop (pySliceIdx l.length e)

/-- Python `int(q)` on a float/rational: truncation toward zero (written on
`num`/`den` so that it evaluates inside the kernel; see `pyInt_eq_floor`). -/
def pyInt (q : ℚ) : ℤ :=
  if 0 ≤ q then q.num / (q.den : ℤ) else -((-q).num / ((-q).den : ℤ))

/-- `pyInt` is floor on nonnegative arguments (and generally truncation
toward zero). -/
theorem pyInt_eq_floor (q : ℚ) (h : 0 ≤ q) : pyInt q = ⌊q⌋ := by
  rw [pyInt, if_pos h, Rat.floor_def]

/-! ## `SimpleGlobalLock` (`lock_manager.py`) -/

/-- State of `SimpleGlobalLock`: the `_is_busy` flag and `current_owner`. -/
structure SimpleGlobalLock where
  isBusy : Bool
  currentOwner : Option String
deriving DecidableEq

namespace SimpleGlobalLock

/-- `SimpleGlobalLock.try_acquire`: returns `False` immediately when busy,
otherwise takes the lock and records the owner. -/
def tryAcquire (l : SimpleGlobalLock) (ownerId : String) :
    SimpleGlobalLock × Bool :=
  if l.isBusy then (l, false)
  else ({ isBusy := true, currentOwner := some ownerId }, true)

/-- `SimpleGlobalLock.release`: a no-op when the lock is free or when the
caller is not the recorded owner; otherwise frees the lock. -/
def release (l : SimpleGlobalLock) (ownerId : String) : SimpleGlobalLock :=
  if !l.isBusy then l
  else if l.currentOwner ≠ some ownerId then l
  else { isBusy := false, currentOwner := none }

/-- `SimpleGlobalLock.is_locked`. -/
def isLocked (l : SimpleGlobalLock) : Bool := l.isBusy

end SimpleGlobalLock

/-! ## Per-session stream state (`ASREngine._process_stream` cache entry) -/

/-- One entry of `ASREngine.cache`: the mutable per-session segmentation
state (`audio_buffer`, `buffer_offset_bytes`, `vad_state.current_start_ms`,
`last_speaker`, `last_partial_time`). `current_start_ms` uses the sentinel
`-1` for "no open span"; `last_partial_time` starts at `0` matching the
`session_cache.get("last_partial_time", 0)` default. -/
structure SessionCache where
  audioBuffer : List Nat
  bufferOffsetBytes : ℤ
  currentStartMs : ℚ
  lastSpeaker : Option String
  lastPartialTime : ℚ
deriving DecidableEq

/-- The fresh session entry created on a session's first chunk. -/
def initSessionCache : SessionCache :=
  { audioBuffer := []
    bufferOffsetBytes := 0
    currentStartMs := -1
    lastSpeaker := none
    lastPartialTime := 0 }

/-- A result of `_process_audio_segment`: recognised text plus the resolved
speaker label (the timestamp and boundary decoration is added by the
caller). -/
structure SegRes where
  text : String
  speaker : String
deriving DecidableEq

/-- One element of the list returned by `_process_stream`.  `partialFlag`
models the optional `"is_partial"` key of the Python result dict: `none`
when the key is absent (VAD-close results), `some b` when present. -/
structure StreamResult where
  text : String
  speakerId : String
  timestamp : ℚ
  vadSegment : List ℚ
  partialFlag : Option Bool
deriving DecidableEq

/-- The `for res in seg_results` loop body that refreshes `last_speaker`:
a result with a truthy speaker label different from `"未知"` overwrites it. -/
def updateLastSpeaker (prev : Option String) (rs : List SegRes) :
    Option String :=
  rs.foldl
    (fun acc r => if r.speaker ≠ "" ∧ r.speaker ≠ "未知" then some r.speaker else acc)
    prev

/-! ## `ASREngine` constants -/

def SAMPLE_RATE : ℕ := 16000
def BYTES_PER_SAMPLE : ℕ := 2
/-- `int(SAMPLE_RATE * BYTES_PER_SAMPLE / 1000)` -/
def BYTES_PER_MS : ℕ := 32
def MIN_SEGMENT_LEN_SEC : ℚ := 0.3
def MIN_SPEAKER_AUDIO_LEN_SEC : ℚ := 0.5
def MAX_SEGMENT_DURATION_MS : ℚ := 8000
/-- In IEEE doubles `16000 * 0.3 * 2` evaluates to exactly `9600.0`, so the
rational value of the minimum-segment byte threshold coincides with the
float one. -/
def minSegmentBytes : ℚ := (SAMPLE_RATE : ℚ) * MIN_SEGMENT_LEN_SEC * (BYTES_PER_SAMPLE : ℚ)

/-! ## `_process_audio_segment`

The segment processor: length gate, speaker resolution, then
noise-reduction + ASR + punctuation.  The speaker resolver `spkRes`
(`recognize_speaker` with its oracles pre-applied; it threads the
process-wide speaker registry of type `ρ`), the post-sanitization ASR text
`asrText` and the punctuation model `punc` are parameters. -/

def processAudioSegmentCore {ρ : Type}
    (spkRes : List Nat → Option String → ρ → String × ρ)
    (asrText : List Nat → String) (punc : String → String)
    (audioBytes : List Nat) (previousSpeaker : Option String) (reg : ρ) :
    List SegRes × ρ :=
  if (audioBytes.length : ℚ) < minSegmentBytes then
    ([], reg)
  else
    let sp := spkRes audioBytes previousSpeaker reg
    let asr := asrText audioBytes
    let finalText := if asr ≠ "" then punc asr else asr
    if finalText ≠ "" then ([⟨finalText, sp.1⟩], sp.2) else ([], sp.2)

/-! ## `_process_stream`, step 3: one VAD boundary pair

`procSeg` abstracts the `self._process_audio_segment(...)` call (it reads
only the segment bytes, the previous speaker and the registry — never the
session buffer state — exactly as in the source). -/

def processVadPair {ρ : Type}
    (procSeg : List Nat → Option String → ρ → List SegRes × ρ)
    (sc : SessionCache) (reg : ρ) (seg : ℚ × ℚ) :
    SessionCache × ρ × List StreamResult :=
  let startMs := seg.1
  let endMs := seg.2
  let sc1 := if startMs ≠ -1 then { sc with currentStartMs := startMs } else sc
  if endMs ≠ -1 then
    let startMsStored := sc1.currentStartMs
    if startMsStored ≠ -1 then
      let absStartByte := pyInt (startMsStored * (BYTES_PER_MS : ℚ))
      let absEndByte := pyInt (endMs * (BYTES_PER_MS : ℚ))
      let startByte0 := absStartByte - sc1.bufferOffsetBytes
      let endByte0 := absEndByte - sc1.bufferOffsetBytes
      let startByte := if startByte0 < 0 then 0 else startByte0
      let bufferLen : ℤ := sc1.audioBuffer.length
      let endByte :=
        if endByte0 > bufferLen ∧ endByte0 - bufferLen < 3200 then bufferLen
        else endByte0
      if endByte ≤ bufferLen then
        let segmentAudio := pySlice sc1.audioBuffer startByte endByte
        let pr := procSeg segmentAudio sc1.lastSpeaker reg
        let res := pr.1.map fun r =>
          { text := r.text, speakerId := r.speaker, timestamp := endMs / 1000
            vadSegment := [startMs, endMs], partialFlag := none }
        ({ sc1 with
            audioBuffer := pyDropTo sc1.audioBuffer endByte
            bufferOffsetBytes := sc1.bufferOffsetBytes + endByte
            lastSpeaker := updateLastSpeaker sc1.lastSpeaker pr.1
            currentStartMs := -1 }, pr.2, res)
      else
        -- not enough data yet ("等待更多数据"): nothing is consumed, but the
        -- final `session_cache["vad_state"]["current_start_ms"] = -1` of the
        -- source still runs and clears the open marker.
        ({ sc1 with currentStartMs := -1 }, reg, [])
    else (sc1, reg, [])
  else (sc1, reg, [])

/-- The `for seg in vad_segments` loop. -/
def processVadSegs {ρ : Type}
    (procSeg : List Nat → Option String → ρ → List SegRes × ρ)
    (segs : List (ℚ × ℚ)) (sc : SessionCache) (reg : ρ) :
    SessionCache × ρ × List StreamResult :=
  segs.foldl
    (fun acc seg =>
      let r := processVadPair procSeg acc.1 acc.2.1 seg
      (r.1, r.2.1, acc.2.2 ++ r.2.2))
    (sc, reg, [])

/-! ## `_process_stream`, step 3.5: backlog guard, partial throttle, forced split -/

/-- Backlog guard: still idle with more than 5 s of audio buffered forces a
synthetic speech start at the buffer's first byte's timestamp. -/
def backlogGuard (sc : SessionCache) : SessionCache :=
  if sc.currentStartMs = -1 ∧
      (sc.audioBuffer.length : ℤ) > (SAMPLE_RATE : ℤ) * (BYTES_PER_SAMPLE : ℤ) * 5 then
    { sc with currentStartMs := (sc.bufferOffsetBytes : ℚ) / (BYTES_PER_MS : ℚ) }
  else sc

/-- `abs_start_byte = int(current_start_ms * 32)` of the open-span block. -/
def openAbsStartByte (sc : SessionCache) : ℤ :=
  pyInt (sc.currentStartMs * (BYTES_PER_MS : ℚ))

/-- `duration_ms = (buffer_offset + len(buffer) - abs_start_byte) / 32.0`. -/
def openDurationMs (sc : SessionCache) : ℚ :=
  ((sc.bufferOffsetBytes + (sc.audioBuffer.length : ℤ) - openAbsStartByte sc : ℤ) : ℚ)
    / (BYTES_PER_MS : ℚ)

/-- The partial-result throttle (source lines 751-809).  `partialAsr` is the
non-final-mode ASR oracle (output already sanitized), `now` the first
`time.time()` read, `nowTs` the second one used for the result timestamp.
The block touches neither the buffer, the offset, the open marker, the
speaker registry nor `last_speaker`. -/
def partialBlock (partialAsr : List Nat → String) (now nowTs : ℚ)
    (sc : SessionCache) : SessionCache × List StreamResult :=
  if now - sc.lastPartialTime > 0.5 ∧ openDurationMs sc > 500 then
    let sc1 := { sc with lastPartialTime := now }
    let startByte0 := openAbsStartByte sc1 - sc1.bufferOffsetBytes
    let startByte := if startByte0 < 0 then 0 else startByte0
    let partialAudio := pySliceFrom sc1.audioBuffer startByte
    if (partialAudio.length : ℚ) > minSegmentBytes then
      let t := partialAsr partialAudio
      if t ≠ "" then
        (sc1, [{ text := t, speakerId := "Partial", timestamp := nowTs
                 vadSegment := [], partialFlag := some true }])
      else (sc1, [])
    else (sc1, [])
  else (sc, [])

/-- The max-duration forced split (source lines 811-851): finalize from the
open start (clamped) through the buffer's current end, consume everything,
re-open at `force_end_ms = current_start_ms + duration_ms`. -/
def forcedSplit {ρ : Type}
    (procSeg : List Nat → Option String → ρ → List SegRes × ρ)
    (sc : SessionCache) (reg : ρ) : SessionCache × ρ × List StreamResult :=
  let forceEndMs := sc.currentStartMs + openDurationMs sc
  let startByte0 := openAbsStartByte sc - sc.bufferOffsetBytes
  let endByte : ℤ := sc.audioBuffer.length
  let startByte := if startByte0 < 0 then 0 else startByte0
  if endByte > startByte then
    let segmentAudio := pySlice sc.audioBuffer startByte endByte
    let pr := procSeg segmentAudio sc.lastSpeaker reg
    let res := pr.1.map fun r =>
      { text := r.text, speakerId := r.speaker, timestamp := forceEndMs / 1000
        vadSegment := [sc.currentStartMs, forceEndMs], partialFlag := some false }
    ({ sc with
        audioBuffer := pyDropTo sc.audioBuffer endByte
        bufferOffsetBytes := sc.bufferOffsetBytes + endByte
        lastSpeaker := updateLastSpeaker sc.lastSpeaker pr.1
        currentStartMs := forceEndMs }, pr.2, res)
  else (sc, reg, [])

/-- The whole `if current_start_ms != -1` block: partial throttle, then the
forced split when the open duration exceeds `MAX_SEGMENT_DURATION_MS`. -/
def openPhase {ρ : Type}
    (procSeg : List Nat → Option String → ρ → List SegRes × ρ)
    (partialAsr : List Nat → String) (now nowTs : ℚ)
    (sc : SessionCache) (reg : ρ) : SessionCache × ρ × List StreamResult :=
  if sc.currentStartMs ≠ -1 then
    let pb := partialBlock partialAsr now nowTs sc
    if openDurationMs sc > MAX_SEGMENT_DURATION_MS then
      let fs := forcedSplit procSeg pb.1 reg
      (fs.1, fs.2.1, pb.2 ++ fs.2.2)
    else (pb.1, reg, pb.2)
  else (sc, reg, [])

/-! ## `_process_stream` assembled -/

/-- Steps 1-5 of `_process_stream` for one chunk: append the chunk, run the
VAD boundary loop (the VAD model is only invoked on a non-empty chunk, so
its reported pairs `vadSegs` are ignored for an empty one), then the backlog
guard and the open-span phase. -/
def mainPhases {ρ : Type}
    (procSeg : List Nat → Option String → ρ → List SegRes × ρ)
    (partialAsr : List Nat → String) (vadSegs : List (ℚ × ℚ)) (now nowTs : ℚ)
    (chunk : List Nat) (sc : SessionCache) (reg : ρ) :
    SessionCache × ρ × List StreamResult :=
  let sc0 := { sc with audioBuffer := sc.audioBuffer ++ chunk }
  let segs := if chunk.isEmpty then [] else vadSegs
  let v := processVadSegs procSeg segs sc0 reg
  let sc1 := backlogGuard v.1
  let op := openPhase procSeg partialAsr now nowTs sc1 v.2.1
  (op.1, op.2.1, v.2.2 ++ op.2.2)

/-- Step 6 of `_process_stream`: on `is_final` with a non-empty buffer, run
the segment processor on everything that remains and drop the session entry
(`none`); otherwise keep the session state. -/
def finalPhase {ρ : Type}
    (procSeg : List Nat → Option String → ρ → List SegRes × ρ)
    (nowFinal : ℚ) (isFinal : Bool) (sc : SessionCache) (reg : ρ) :
    Option SessionCache × ρ × List StreamResult :=
  if isFinal ∧ sc.audioBuffer ≠ [] then
    let pr := procSeg sc.audioBuffer sc.lastSpeaker reg
    let res := pr.1.map fun r =>
      { text := r.text, speakerId := r.speaker, timestamp := nowFinal
        vadSegment := [], partialFlag := some false }
    (none, pr.2, res)
  else (some sc, reg, [])

/-- `_process_stream` for one session entry: the main phases followed by the
`is_final` cleanup; `none` in the first component means the cache entry was
deleted. -/
def processChunkSession {ρ : Type}
    (procSeg : List Nat → Option String → ρ → List SegRes × ρ)
    (partialAsr : List Nat → String) (vadSegs : List (ℚ × ℚ))
    (now nowTs nowFinal : ℚ) (chunk : List Nat) (isFinal : Bool)
    (sc : SessionCache) (reg : ρ) :
    Option SessionCache × ρ × List StreamResult :=
  let m := mainPhases procSeg partialAsr vadSegs now nowTs chunk sc reg
  let f := finalPhase procSeg nowFinal isFinal m.1 m.2.1
  (f.1, f.2.1, m.2.2 ++ f.2.2)

/-! ## Engine-level session map (`self.cache`) -/

/-- The process-wide engine state: the per-session cache dictionary and the
speaker registry (of abstract type `ρ`). -/
structure EngineState (ρ : Type) where
  cache : List (String × SessionCache)
  speakerRegistry : ρ

/-- `session_id in self.cache` / `self.cache[session_id]`. -/
def lookupSession (cache : List (String × SessionCache)) (sid : String) :
    Option SessionCache :=
  match cache.find? (fun e => e.1 == sid) with
  | some e => some e.2
  | none => none

/-- `self.cache[session_id] = sc` (dict update-or-insert). -/
def setSession (cache : List (String × SessionCache)) (sid : String)
    (sc : SessionCache) : List (String × SessionCache) :=
  match cache with
  | [] => [(sid, sc)]
  | e :: rest => if e.1 == sid then (sid, sc) :: rest else e :: setSession rest sid sc

/-- `del self.cache[session_id]`. -/
def eraseSession (cache : List (String × SessionCache)) (sid : String) :
    List (String × SessionCache) :=
  cache.filter fun e => !(e.1 == sid)

/-- `_process_stream` at the engine level: create the session entry on first
contact, process the chunk, write the surviving state back or delete the
entry. -/
def processStream {ρ : Type}
    (procSeg : List Nat → Option String → ρ → List SegRes × ρ)
    (partialAsr : List Nat → String) (vadSegs : List (ℚ × ℚ))
    (now nowTs nowFinal : ℚ) (e : EngineState ρ) (sessionId : String)
    (chunk : List Nat) (isFinal : Bool) : EngineState ρ × List StreamResult :=
  let sc := (lookupSession e.cache sessionId).getD initSessionCache
  let r := processChunkSession procSeg partialAsr vadSegs now nowTs nowFinal
      chunk isFinal sc e.speakerRegistry
  let newCache :=
    match r.1 with
    | some sc' => setSession e.cache sessionId sc'
    | none => eraseSession e.cache sessionId
  ({ cache := newCache, speakerRegistry := r.2.1 }, r.2.2)

/-- `ASREngine.reset_session`: drop the session's cache entry. -/
def resetSession {ρ : Type} (e : EngineState ρ) (sessionId : String) :
    EngineState ρ :=
  { e with cache := eraseSession e.cache sessionId }

/-! ## Traces of non-final steps (for the offset-conservation claim) -/

/-- One non-final call to `_process_stream` for a session: its chunk, the
VAD pairs the oracle reported for it, and the two clock reads. -/
structure StepInput where
  chunk : List Nat
  vadSegs : List (ℚ × ℚ)
  now : ℚ
  nowTs : ℚ

/-- Run a sequence of non-final `_process_stream` calls on one session's
state (on non-final calls the state always survives, so only the main
phases act). -/
def runTrace {ρ : Type}
    (procSeg : List Nat → Option String → ρ → List SegRes × ρ)
    (partialAsr : List Nat → String) :
    List StepInput → SessionCache → ρ → SessionCache × ρ
  | [], sc, reg => (sc, reg)
  | st :: rest, sc, reg =>
    let m := mainPhases procSeg partialAsr st.vadSegs st.now st.nowTs st.chunk sc reg
    runTrace procSeg partialAsr rest m.1 m.2.1

/-- Total number of bytes appended by a trace. -/
def totalAppended : List StepInput → ℤ
  | [] => 0
  | st :: rest => st.chunk.length + totalAppended rest

/-- A VAD pair is in range for a state when, if it is a close, its absolute
end byte does not point before the buffer's base offset — unless it
overshoots the buffer entirely (in which case the close is clamped or
deferred and consumes nothing). -/
def pairOk (sc : SessionCache) (seg : ℚ × ℚ) : Prop :=
  seg.2 ≠ -1 →
    0 ≤ pyInt (seg.2 * (BYTES_PER_MS : ℚ)) - sc.bufferOffsetBytes ∨
    (sc.audioBuffer.length : ℤ) < pyInt (seg.2 * (BYTES_PER_MS : ℚ)) - sc.bufferOffsetBytes

/-- All VAD pairs of a list are in range for the states at which the VAD
loop actually processes them. -/
def pairsOk {ρ : Type}
    (procSeg : List Nat → Option String → ρ → List SegRes × ρ) :
    SessionCache → ρ → List (ℚ × ℚ) → Prop
  | _, _, [] => True
  | sc, reg, seg :: rest =>
    pairOk sc seg ∧
      pairsOk procSeg (processVadPair procSeg sc reg seg).1
        (processVadPair procSeg sc reg seg).2.1 rest

/-- A step's VAD closes are in range for the states at which they are
processed (after the chunk append; an empty chunk reports no pairs). -/
def stepOk {ρ : Type}
    (procSeg : List Nat → Option String → ρ → List SegRes × ρ)
    (sc : SessionCache) (reg : ρ) (st : StepInput) : Prop :=
  pairsOk procSeg { sc with audioBuffer := sc.audioBuffer ++ st.chunk } reg
    (if st.chunk.isEmpty then [] else st.vadSegs)

/-- Every step of a trace has in-range VAD closes. -/
def traceOk {ρ : Type}
    (procSeg : List Nat → Option String → ρ → List SegRes × ρ)
    (partialAsr : List Nat → String) :
    SessionCache → ρ → List StepInput → Prop
  | _, _, [] => True
  | sc, reg, st :: rest =>
    stepOk procSeg sc reg st ∧
      traceOk procSeg partialAsr
        (mainPhases procSeg partialAsr st.vadSegs st.now st.nowTs st.chunk sc reg).1
        (mainPhases procSeg partialAsr st.vadSegs st.now st.nowTs st.chunk sc reg).2.1
        rest

/-! ## Speaker registry and `recognize_speaker`

Embedding vectors are `Fin n → ℝ`.  `np.linalg.norm` is the Euclidean norm,
`_cosine_similarity` follows the source exactly (returning `0.0` when either
norm vanishes; the `np.squeeze` calls are identities in this model). -/

/-- An embedding vector. -/
abbrev Vec (n : ℕ) : Type := Fin n → ℝ

/-- `np.dot` of two vectors. -/
def npDot {n : ℕ} (v w : Vec n) : ℝ := ∑ i, v i * w i

/-- `np.linalg.norm`. -/
noncomputable def npNorm {n : ℕ} (v : Vec n) : ℝ := Real.sqrt (npDot v v)

/-- `ASREngine._cosine_similarity`. -/
noncomputable def cosineSimilarity {n : ℕ} (v1 v2 : Vec n) : ℝ :=
  if npNorm v1 = 0 ∨ npNorm v2 = 0 then 0
  else npDot v1 v2 / (npNorm v1 * npNorm v2)

/-- One `speaker_registry` entry: `{"embedding": ..., "gender": ..., "count": ...}`. -/
structure SpeakerProfile (n : ℕ) where
  embedding : Vec n
  gender : String
  count : ℕ

/-- `self.speaker_registry`, a Python dict in insertion order. -/
abbrev Registry (n : ℕ) : Type := List (String × SpeakerProfile n)

/-- `spk_id in registry` / `registry[spk_id]` (first matching key). -/
def lookupReg {n : ℕ} (reg : Registry n) (spkId : String) :
    Option (SpeakerProfile n) :=
  match reg.find? (fun e => e.1 == spkId) with
  | some e => some e.2
  | none => none

/-- `registry[spk_id] = prof` on an existing key. -/
def updateReg {n : ℕ} (reg : Registry n) (spkId : String)
    (prof : SpeakerProfile n) : Registry n :=
  match reg with
  | [] => []
  | e :: rest =>
    if e.1 == spkId then (spkId, prof) :: rest else e :: updateReg rest spkId prof

/-- `SPEAKER_SIMILARITY_THRESHOLD`. -/
noncomputable def SPEAKER_SIMILARITY_THRESHOLD : ℝ := 0.35

/-- The best/second-best scan over the registry (source lines 243-256):
returns `(best_speaker, best_score, second_best_score)` with both scores
initialised to `-1.0`. -/
noncomputable def bestSearch {n : ℕ} (reg : Registry n) (emb : Vec n) :
    Option String × ℝ × ℝ :=
  reg.foldl
    (fun acc e =>
      let score := cosineSimilarity emb e.2.embedding
      if score > acc.2.1 then (some e.1, score, acc.2.1)
      else if score > acc.2.2 then (acc.1, acc.2.1, score)
      else acc)
    (none, -1, -1)

/-- The continuity override (source lines 269-282): when a previous speaker
is given and differs from the best match, look its profile up (a missing key
leaves `prev_score = 0.0`), and keep the previous speaker when its score
beats the threshold and is within `0.1` of the best score. -/
noncomputable def continuityAdjust {n : ℕ} (reg : Registry n) (emb : Vec n)
    (previousSpeaker : Option String) (bestSpeaker : Option String)
    (bestScore : ℝ) : Option String × ℝ :=
  match previousSpeaker with
  | none => (bestSpeaker, bestScore)
  | some p =>
    if bestSpeaker ≠ some p then
      let prevScore : ℝ :=
        match lookupReg reg p with
        | some prof => cosineSimilarity emb prof.embedding
        | none => 0
      if prevScore > SPEAKER_SIMILARITY_THRESHOLD ∧ bestScore - prevScore < 0.1 then
        (some p, prevScore)
      else (bestSpeaker, bestScore)
    else (bestSpeaker, bestScore)

/-- `alpha = 1 - 1 / (1 + count * 0.5)`. -/
noncomputable def alphaOf (count : ℕ) : ℝ := 1 - 1 / (1 + (count : ℝ) * 0.5)

/-- The adaptive blend of a matched profile with the new embedding. -/
noncomputable def blendEmb {n : ℕ} (count : ℕ) (oldEmb emb : Vec n) : Vec n :=
  fun i => alphaOf count * oldEmb i + (1 - alphaOf count) * emb i

/-- The accepted-match update (source lines 284-299): blend, re-normalize,
increment the count, and return the updated registry with the matched
profile's gender tag. -/
noncomputable def acceptUpdate {n : ℕ} (reg : Registry n) (p : String)
    (emb : Vec n) : Registry n × String :=
  match lookupReg reg p with
  | some prof =>
    let newEmb0 := blendEmb prof.count prof.embedding emb
    let newEmb : Vec n := fun i => newEmb0 i / npNorm newEmb0
    (updateReg reg p { embedding := newEmb, gender := prof.gender, count := prof.count + 1 },
      prof.gender)
  | none => (reg, "")  -- dead branch: the accept path only runs for a registered key

/-- New-speaker registration (source lines 300-313): the fresh id is
`Speaker_{len(registry)+1}`, the raw embedding is stored as-is, and the
gender tag comes from the pitch heuristic `genderOf` (an oracle here). -/
def registerNew {n : ℕ} (reg : Registry n) (emb : Vec n) (gender : String) :
    Registry n × String :=
  let newId := "Speaker_" ++ toString (reg.length + 1)
  (reg ++ [(newId, { embedding := emb, gender := gender, count := 1 })],
    newId ++ " (" ++ gender ++ ")")

/-- `ASREngine.recognize_speaker`.  `spkEmb` is the speaker-embedding oracle
(`none` models a failed/absent embedding, which the source turns into
`"未知"` via its except/None handling); `genderOf` is `detect_gender`.
Returns the speaker label and the updated registry. -/
noncomputable def recognizeSpeaker {n : ℕ}
    (spkEmb : List Nat → Option (Vec n)) (genderOf : List Nat → String)
    (audioSegment : List Nat) (previousSpeaker : Option String)
    (reg : Registry n) : String × Registry n :=
  if (audioSegment.length : ℚ) <
      (SAMPLE_RATE : ℚ) * MIN_SPEAKER_AUDIO_LEN_SEC * (BYTES_PER_SAMPLE : ℚ) then
    (match previousSpeaker with
     | some p => match lookupReg reg p with | some _ => p | none => "未知"
     | none => "未知", reg)
  else
    match spkEmb audioSegment with
    | none => ("未知", reg)
    | some emb =>
      let b := bestSearch reg emb
      let c := continuityAdjust reg emb previousSpeaker b.1 b.2.1
      if c.2 > SPEAKER_SIMILARITY_THRESHOLD then
        match c.1 with
        | some p =>
          let u := acceptUpdate reg p emb
          (p ++ " (" ++ u.2 ++ ")", u.1)
        | none => ("未知", reg)  -- `registry[None]` raises; the except returns "未知"
      else
        let gender := genderOf audioSegment
        let r := registerNew reg emb gender
        (r.2, r.1)

/-! ## Helper lemmas on the session map -/

theorem lookupSession_eraseSession (cache : List (String × SessionCache))
    (sid : String) : lookupSession (eraseSession cache sid) sid = none := by
  induction cache with
  | nil => rfl
  | cons e rest ih =>
    by_cases h : e.1 == sid
    · simpa [eraseSession, List.filter_cons, h] using ih
    · simpa [eraseSession, List.filter_cons, h, lookupSession, List.find?_cons, h] using ih

theorem lookupSession_setSession (cache : List (String × SessionCache))
    (sid : String) (sc : SessionCache) :
    lookupSession (setSession cache sid sc) sid = some sc := by
  induction cache with
  | nil => simp [setSession, lookupSession, List.find?_cons]
  | cons e rest ih =>
    by_cases h : e.1 == sid
    · simp [setSession, h, lookupSession, List.find?_cons]
    · simpa [setSession, h, lookupSession, List.find?_cons] using ih

/-! ## Claim C9: resource-gate mutual exclusion -/

/-- C9: whenever `SimpleGlobalLock` is held, `try_acquire` by any owner
returns `false` and changes no state; `release` when the lock is free, or by
a caller who is not the current owner, is a no-op; only a release by the
current owner frees the lock (busy flag cleared, owner cleared). -/
theorem c9_lock_gate (l : SimpleGlobalLock) (o : String) :
    (l.isBusy = true → l.tryAcquire o = (l, false)) ∧
    (l.isBusy = false → l.release o = l) ∧
    (l.isBusy = true → l.currentOwner ≠ some o → l.release o = l) ∧
    (l.isBusy = true → l.currentOwner = some o →
      l.release o = { isBusy := false, currentOwner := none }) := by
  refine ⟨fun hb => ?_, fun hf => ?_, fun hb hn => ?_, fun hb ho => ?_⟩
  · simp [SimpleGlobalLock.tryAcquire, hb]
  · simp [SimpleGlobalLock.release, hf]
  · simp [SimpleGlobalLock.release, hb, hn]
  · simp [SimpleGlobalLock.release, hb, ho]

/-- Witness for C9 at concrete lock states. -/
theorem c9_lock_gate_witness :
    SimpleGlobalLock.tryAcquire ⟨true, some "a"⟩ "b" = (⟨true, some "a"⟩, false) ∧
    SimpleGlobalLock.release ⟨false, none⟩ "a" = ⟨false, none⟩ ∧
    SimpleGlobalLock.release ⟨true, some "a"⟩ "b" = ⟨true, some "a"⟩ ∧
    SimpleGlobalLock.release ⟨true, some "a"⟩ "a" = ⟨false, none⟩ :=
  ⟨(c9_lock_gate ⟨true, some "a"⟩ "b").1 rfl,
   (c9_lock_gate ⟨false, none⟩ "a").2.1 rfl,
   (c9_lock_gate ⟨true, some "a"⟩ "b").2.2.1 rfl (by decide),
   (c9_lock_gate ⟨true, some "a"⟩ "a").2.2.2 rfl rfl⟩

/-! ## Claim C1: deferred VAD close

The source defers a close whose end byte exceeds the buffer even after the
tolerance clamp (no bytes are consumed), but the trailing
`session_cache["vad_state"]["current_start_ms"] = -1` runs unconditionally,
so the open marker is cleared rather than left set: the deferred boundary is
never reconsidered on a later chunk. -/

/-- A session state in the middle of a stream: 3200 buffered bytes, open
marker at 0 ms. -/
def c1State : SessionCache :=
  { audioBuffer := List.replicate 3200 0
    bufferOffsetBytes := 0
    currentStartMs := 0
    lastSpeaker := none
    lastPartialTime := 0 }

/-- C1 (failing-input evaluation): a VAD close at 1000 ms against 3200
buffered bytes (overshoot 28800 ≥ 3200, so no clamp) consumes nothing —
but resets `current_start_ms` to `-1` instead of leaving the open marker
set, contradicting the deferral-and-reconsider behaviour. -/
theorem c1_defer_clears_marker :
    processVadPair (fun _ _ (r : Unit) => ([], r)) c1State () (-1, 1000) =
      ({ c1State with currentStartMs := -1 }, (), []) := by
  simp only [processVadPair, c1State]
  norm_num [pyInt, BYTES_PER_MS, List.length_replicate]

/-! ## Claim C8: session lifecycle

The `del self.cache[session_id]` of the final flag runs only inside
`if is_final and len(audio_buffer) > 0`, so a final chunk that arrives with
an empty remaining buffer (the normal case when VAD consumed everything,
since the transport sends `is_final=True` with an empty chunk) leaves the
session entry alive. -/

/-- C8 (counterexample): a final-flagged empty chunk on a session whose
buffer is empty leaves the session's state entry in the cache (here the
first chunk itself is final, so the freshly created entry survives). -/
theorem c8_final_empty_buffer_leaks :
    lookupSession
      (processStream (fun _ _ (r : Unit) => ([], r)) (fun _ => "") [] 0 0 0
        ⟨[], ()⟩ "s" [] true).1.cache "s" = some initSessionCache := by
  decide

/-- C8 (amended): the session entry is removed by a final-flagged chunk
whenever the remaining buffer at the final step is non-empty, and is always
removed by `reset_session`. -/
theorem c8_amended_teardown {ρ : Type}
    (procSeg : List Nat → Option String → ρ → List SegRes × ρ)
    (partialAsr : List Nat → String) (vadSegs : List (ℚ × ℚ))
    (now nowTs nowFinal : ℚ) (e : EngineState ρ) (sid : String)
    (chunk : List Nat)
    (hb : (mainPhases procSeg partialAsr vadSegs now nowTs chunk
        ((lookupSession e.cache sid).getD initSessionCache)
        e.speakerRegistry).1.audioBuffer ≠ []) :
    lookupSession
      (processStream procSeg partialAsr vadSegs now nowTs nowFinal e sid
        chunk true).1.cache sid = none ∧
    lookupSession (resetSession e sid).cache sid = none := by
  constructor
  · unfold processStream processChunkSession finalPhase
    simp only [hb, ne_eq, not_false_eq_true, and_self, if_true, true_and]
    exact lookupSession_eraseSession e.cache sid
  · exact lookupSession_eraseSession e.cache sid

/-- A session state with one leftover buffered byte, for the C8 witness. -/
def c8State : SessionCache :=
  { audioBuffer := [0]
    bufferOffsetBytes := 0
    currentStartMs := -1
    lastSpeaker := none
    lastPartialTime := 0 }

/-- Witness for C8 (amended) on a session holding one leftover byte. -/
theorem c8_amended_teardown_witness :
    (mainPhases (fun _ _ (r : Unit) => ([], r)) (fun _ => "") [] 0 0 []
        ((lookupSession [("s", c8State)] "s").getD initSessionCache)
        ()).1.audioBuffer ≠ [] ∧
    lookupSession
      (processStream (fun _ _ (r : Unit) => ([], r)) (fun _ => "") [] 0 0 0
        ⟨[("s", c8State)], ()⟩ "s" [] true).1.cache "s" = none ∧
    lookupSession
      (resetSession (⟨[("s", c8State)], ()⟩ : EngineState Unit) "s").cache "s" =
      none := by
  refine ⟨by decide, ?_, ?_⟩
  · exact (c8_amended_teardown (fun _ _ (r : Unit) => ([], r)) (fun _ => "") [] 0 0 0
      ⟨[("s", c8State)], ()⟩ "s" [] (by decide)).1
  · exact (c8_amended_teardown (fun _ _ (r : Unit) => ([], r)) (fun _ => "") [] 0 0 0
      ⟨[("s", c8State)], ()⟩ "s" [] (by decide)).2

/-! ## Slice helper lemmas -/

theorem pySliceIdx_natCast (len n : ℕ) : pySliceIdx len (n : ℤ) = min n len := by
  simp [pySliceIdx]

theorem pySliceIdx_of_nonneg_le {len : ℕ} {e : ℤ} (h0 : 0 ≤ e)
    (hle : e ≤ (len : ℤ)) : pySliceIdx len e = e.toNat := by
  rw [pySliceIdx, if_neg (not_lt.mpr h0)]
  have : e.toNat ≤ len := by omega
  omega

theorem pyDropTo_length {α : Type} (l : List α) :
    pyDropTo l (l.length : ℤ) = [] := by
  simp [pyDropTo, pySliceIdx_natCast]

theorem pyDropTo_len_of_nonneg_le {α : Type} (l : List α) {e : ℤ} (h0 : 0 ≤ e)
    (hle : e ≤ (l.length : ℤ)) :
    ((pyDropTo l e).length : ℤ) = (l.length : ℤ) - e := by
  rw [pyDropTo, pySliceIdx_of_nonneg_le h0 hle]
  simp [List.length_drop]
  omega

/-! ## Claim C2: `is_final` flush

The final-flag branch hands the remaining buffer to
`_process_audio_segment`, which still applies the 0.3 s minimum-length
gate: a sub-minimum tail is dropped without emitting any result (the spec's
own "no-loss" property concedes this as the "sub-minimum tail dropped at
`is_final`"), so the "regardless of the minimum-segment-length threshold"
part of the claim fails.  Teardown and VAD-state independence do hold. -/

/-- C2 (counterexample): a final chunk with a non-empty remaining buffer
below the 9600-byte minimum (here a 1-byte tail) emits no result at all even
though the ASR oracle would return non-empty text, while the session entry
is still torn down. -/
theorem c2_final_min_length_still_applies :
    (processChunkSession
        (processAudioSegmentCore (fun _ _ (r : Unit) => ("X", r))
          (fun _ => "hello") (fun t => t))
        (fun _ => "") [] 0 0 0 [] true ⟨[0], 0, -1, none, 0⟩ ()).2.2 = [] ∧
    (processChunkSession
        (processAudioSegmentCore (fun _ _ (r : Unit) => ("X", r))
          (fun _ => "hello") (fun t => t))
        (fun _ => "") [] 0 0 0 [] true ⟨[0], 0, -1, none, 0⟩ ()).1 = none := by
  norm_num [processChunkSession, mainPhases, processVadSegs, backlogGuard,
    openPhase, finalPhase, processAudioSegmentCore, minSegmentBytes,
    MIN_SEGMENT_LEN_SEC, SAMPLE_RATE, BYTES_PER_SAMPLE]

/-- C2 (amended): on `is_final` with a non-empty remaining buffer, all the
remaining buffered bytes are handed to the segment processor as one last
segment — independently of the VAD open/idle state — its results (if any)
are appended non-partial with empty boundaries, and the session entry is
dropped; the minimum-length gate inside the segment processor still
applies. -/
theorem c2_amended_final_flush {ρ : Type}
    (procSeg : List Nat → Option String → ρ → List SegRes × ρ)
    (partialAsr : List Nat → String) (vadSegs : List (ℚ × ℚ))
    (now nowTs nowFinal : ℚ) (chunk : List Nat) (sc : SessionCache) (reg : ρ)
    (hb : (mainPhases procSeg partialAsr vadSegs now nowTs chunk sc reg).1.audioBuffer ≠ []) :
    (processChunkSession procSeg partialAsr vadSegs now nowTs nowFinal chunk
        true sc reg).1 = none ∧
    (processChunkSession procSeg partialAsr vadSegs now nowTs nowFinal chunk
        true sc reg).2.2 =
      (mainPhases procSeg partialAsr vadSegs now nowTs chunk sc reg).2.2 ++
        ((procSeg
            (mainPhases procSeg partialAsr vadSegs now nowTs chunk sc reg).1.audioBuffer
            (mainPhases procSeg partialAsr vadSegs now nowTs chunk sc reg).1.lastSpeaker
            (mainPhases procSeg partialAsr vadSegs now nowTs chunk sc reg).2.1).1.map
          fun r =>
            { text := r.text, speakerId := r.speaker, timestamp := nowFinal
              vadSegment := [], partialFlag := some false }) := by
  unfold processChunkSession finalPhase
  simp [hb]

/-- Witness for C2 (amended): one leftover byte is flushed as the final
segment and the oracle's result is emitted non-partial. -/
theorem c2_amended_final_flush_witness :
    (mainPhases (fun _ _ (r : Unit) => ([⟨"hi", "X"⟩], r)) (fun _ => "") []
        0 0 [] ⟨[0], 0, -1, none, 0⟩ ()).1.audioBuffer ≠ [] ∧
    (processChunkSession (fun _ _ (r : Unit) => ([⟨"hi", "X"⟩], r))
        (fun _ => "") [] 0 0 7 [] true ⟨[0], 0, -1, none, 0⟩ ()).1 = none ∧
    (processChunkSession (fun _ _ (r : Unit) => ([⟨"hi", "X"⟩], r))
        (fun _ => "") [] 0 0 7 [] true ⟨[0], 0, -1, none, 0⟩ ()).2.2 =
      (mainPhases (fun _ _ (r : Unit) => ([⟨"hi", "X"⟩], r)) (fun _ => "") []
          0 0 [] ⟨[0], 0, -1, none, 0⟩ ()).2.2 ++
        [{ text := "hi", speakerId := "X", timestamp := 7, vadSegment := []
           partialFlag := some false }] := by
  refine ⟨by decide, ?_, ?_⟩
  · exact (c2_amended_final_flush (fun _ _ (r : Unit) => ([⟨"hi", "X"⟩], r))
      (fun _ => "") [] 0 0 7 [] ⟨[0], 0, -1, none, 0⟩ () (by decide)).1
  · exact (c2_amended_final_flush (fun _ _ (r : Unit) => ([⟨"hi", "X"⟩], r))
      (fun _ => "") [] 0 0 7 [] ⟨[0], 0, -1, none, 0⟩ () (by decide)).2

/-! ## Claim C6: VAD tolerance clamp -/

/-- C6: a VAD close whose end byte exceeds the buffer by less than the
3200-byte tolerance window is clamped to the buffer length: exactly one
segment (from the clamped start byte through the buffer's end) is handed to
the segment processor, the whole buffer is consumed, the base offset grows
by the whole buffer length, and the span closes. -/
theorem c6_tolerance_clamp {ρ : Type}
    (procSeg : List Nat → Option String → ρ → List SegRes × ρ)
    (sc : SessionCache) (reg : ρ) (startMs endMs : ℚ)
    (hs : startMs ≠ -1) (he : endMs ≠ -1)
    (hover : (sc.audioBuffer.length : ℤ) <
      pyInt (endMs * (BYTES_PER_MS : ℚ)) - sc.bufferOffsetBytes)
    (htol : pyInt (endMs * (BYTES_PER_MS : ℚ)) - sc.bufferOffsetBytes -
      (sc.audioBuffer.length : ℤ) < 3200) :
    processVadPair procSeg sc reg (startMs, endMs) =
      (let startByte0 := pyInt (startMs * (BYTES_PER_MS : ℚ)) - sc.bufferOffsetBytes
       let startByte := if startByte0 < 0 then 0 else startByte0
       let pr := procSeg (pySlice sc.audioBuffer startByte (sc.audioBuffer.length : ℤ))
         sc.lastSpeaker reg
       ({ sc with audioBuffer := []
                  bufferOffsetBytes := sc.bufferOffsetBytes + (sc.audioBuffer.length : ℤ)
                  lastSpeaker := updateLastSpeaker sc.lastSpeaker pr.1
                  currentStartMs := -1 },
        pr.2,
        pr.1.map fun r =>
          { text := r.text, speakerId := r.speaker, timestamp := endMs / 1000
            vadSegment := [startMs, endMs], partialFlag := none })) := by
  have hcond : pyInt (endMs * (BYTES_PER_MS : ℚ)) - sc.bufferOffsetBytes >
      (sc.audioBuffer.length : ℤ) ∧
      pyInt (endMs * (BYTES_PER_MS : ℚ)) - sc.bufferOffsetBytes -
        (sc.audioBuffer.length : ℤ) < 3200 := ⟨hover, htol⟩
  simp only [processVadPair]
  rw [if_pos hs]
  dsimp only
  rw [if_pos he, if_pos hs, if_pos hcond, if_pos (le_refl _), pyDropTo_length]

/-- Witness for C6: the spec's example — 9600 bytes buffered, VAD close at
301 ms (byte-equivalent 9632, a 32-byte overshoot): one segment spanning the
whole buffer, empty buffer afterwards, `base_offset += 9600`. -/
theorem c6_tolerance_clamp_witness :
    ((((⟨List.replicate 9600 0, 0, -1, none, 0⟩ : SessionCache)).audioBuffer.length : ℤ) <
      pyInt ((301 : ℚ) * (BYTES_PER_MS : ℚ)) -
        (⟨List.replicate 9600 0, 0, -1, none, 0⟩ : SessionCache).bufferOffsetBytes) ∧
    (pyInt ((301 : ℚ) * (BYTES_PER_MS : ℚ)) -
        (⟨List.replicate 9600 0, 0, -1, none, 0⟩ : SessionCache).bufferOffsetBytes -
        (((⟨List.replicate 9600 0, 0, -1, none, 0⟩ : SessionCache)).audioBuffer.length : ℤ) < 3200) ∧
    (processVadPair (fun _ _ (r : Unit) => ([⟨"tolerance test", "X"⟩], r))
        ⟨List.replicate 9600 0, 0, -1, none, 0⟩ () (0, 301)).1.audioBuffer = [] ∧
    (processVadPair (fun _ _ (r : Unit) => ([⟨"tolerance test", "X"⟩], r))
        ⟨List.replicate 9600 0, 0, -1, none, 0⟩ () (0, 301)).1.bufferOffsetBytes = 9600 ∧
    (processVadPair (fun _ _ (r : Unit) => ([⟨"tolerance test", "X"⟩], r))
        ⟨List.replicate 9600 0, 0, -1, none, 0⟩ () (0, 301)).1.currentStartMs = -1 ∧
    (processVadPair (fun _ _ (r : Unit) => ([⟨"tolerance test", "X"⟩], r))
        ⟨List.replicate 9600 0, 0, -1, none, 0⟩ () (0, 301)).2.2 =
      [{ text := "tolerance test", speakerId := "X", timestamp := 301 / 1000
         vadSegment := [0, 301], partialFlag := none }] := by
  have hlen : (((List.replicate 9600 (0 : ℕ)).length : ℕ) : ℤ) = 9600 := by
    rw [List.length_replicate]; norm_num
  have hpy : pyInt ((301 : ℚ) * (BYTES_PER_MS : ℚ)) = 9632 := by
    norm_num [pyInt, BYTES_PER_MS]
  have h1 : ((((⟨List.replicate 9600 0, 0, -1, none, 0⟩ : SessionCache)).audioBuffer.length : ℤ) <
      pyInt ((301 : ℚ) * (BYTES_PER_MS : ℚ)) -
        (⟨List.replicate 9600 0, 0, -1, none, 0⟩ : SessionCache).bufferOffsetBytes) := by
    dsimp only
    rw [hlen, hpy]
    norm_num
  have h2 : (pyInt ((301 : ℚ) * (BYTES_PER_MS : ℚ)) -
      (⟨List.replicate 9600 0, 0, -1, none, 0⟩ : SessionCache).bufferOffsetBytes -
      (((⟨List.replicate 9600 0, 0, -1, none, 0⟩ : SessionCache)).audioBuffer.length : ℤ) < 3200) := by
    dsimp only
    rw [hlen, hpy]
    norm_num
  have heq := c6_tolerance_clamp (fun _ _ (r : Unit) => ([⟨"tolerance test", "X"⟩], r))
    ⟨List.replicate 9600 0, 0, -1, none, 0⟩ () 0 301 (by norm_num) (by norm_num) h1 h2
  refine ⟨by exact h1, by exact h2, ?_, ?_, ?_, ?_⟩
  · rw [heq]
  · simp only [heq]
    rw [hlen]
    norm_num
  · rw [heq]
  · rw [heq]
    rfl

/-! ## Frame lemmas for the partial-result throttle -/

theorem partialBlock_state (partialAsr : List Nat → String) (now nowTs : ℚ)
    (sc : SessionCache) :
    (partialBlock partialAsr now nowTs sc).1.audioBuffer = sc.audioBuffer ∧
    (partialBlock partialAsr now nowTs sc).1.bufferOffsetBytes = sc.bufferOffsetBytes ∧
    (partialBlock partialAsr now nowTs sc).1.currentStartMs = sc.currentStartMs ∧
    (partialBlock partialAsr now nowTs sc).1.lastSpeaker = sc.lastSpeaker := by
  simp only [partialBlock]
  repeat' split
  all_goals simp

theorem partialBlock_results (partialAsr : List Nat → String) (now nowTs : ℚ)
    (sc : SessionCache) :
    ∀ r ∈ (partialBlock partialAsr now nowTs sc).2,
      r.speakerId = "Partial" ∧ r.vadSegment = [] ∧ r.partialFlag = some true := by
  simp only [partialBlock]
  repeat' split
  all_goals
    intro r hr
    first
    | (simp only [List.mem_cons, List.not_mem_nil, or_false] at hr
       subst hr
       exact ⟨rfl, rfl, rfl⟩)
    | simp at hr

theorem openDurationMs_partialBlock (partialAsr : List Nat → String)
    (now nowTs : ℚ) (sc : SessionCache) :
    openDurationMs (partialBlock partialAsr now nowTs sc).1 = openDurationMs sc := by
  obtain ⟨h1, h2, h3, -⟩ := partialBlock_state partialAsr now nowTs sc
  unfold openDurationMs openAbsStartByte
  rw [h1, h2, h3]

/-! ## Claim C5: max-duration forced split -/

/-- Auxiliary slice fact: slicing the whole list. -/
theorem pySlice_zero_length {α : Type} (l : List α) :
    pySlice l 0 (l.length : ℤ) = l := by
  rw [pySlice, pySliceIdx_natCast, min_self, List.take_length,
    pySliceIdx_of_nonneg_le le_rfl (by exact_mod_cast Nat.zero_le l.length)]
  simp

/-- C5: when the open span's duration exceeds `MAX_SEGMENT_DURATION_MS` and
the open start lies at (or before) the buffer's base, the open phase
finalizes exactly one non-partial segment consisting of the entire buffer,
consumes the buffer through its current end, and re-opens at
`current_start_ms + duration_ms` — byte-exactly at the new base offset
(no gap, no overlap). -/
theorem c5_forced_split {ρ : Type}
    (procSeg : List Nat → Option String → ρ → List SegRes × ρ)
    (partialAsr : List Nat → String) (now nowTs : ℚ) (sc : SessionCache)
    (reg : ρ)
    (hopen : sc.currentStartMs ≠ -1)
    (hdur : openDurationMs sc > MAX_SEGMENT_DURATION_MS)
    (hstart : openAbsStartByte sc ≤ sc.bufferOffsetBytes)
    (hne : sc.audioBuffer ≠ [])
    (hexact : sc.currentStartMs * (BYTES_PER_MS : ℚ) = ((openAbsStartByte sc : ℤ) : ℚ)) :
    (openPhase procSeg partialAsr now nowTs sc reg).1.audioBuffer = [] ∧
    (openPhase procSeg partialAsr now nowTs sc reg).1.bufferOffsetBytes =
      sc.bufferOffsetBytes + (sc.audioBuffer.length : ℤ) ∧
    (openPhase procSeg partialAsr now nowTs sc reg).1.currentStartMs =
      sc.currentStartMs + openDurationMs sc ∧
    (openPhase procSeg partialAsr now nowTs sc reg).1.currentStartMs *
        (BYTES_PER_MS : ℚ) =
      ((sc.bufferOffsetBytes + (sc.audioBuffer.length : ℤ) : ℤ) : ℚ) ∧
    (openPhase procSeg partialAsr now nowTs sc reg).2.1 =
      (procSeg sc.audioBuffer sc.lastSpeaker reg).2 ∧
    ((openPhase procSeg partialAsr now nowTs sc reg).2.2.filter
        fun r => r.partialFlag == some false) =
      (procSeg sc.audioBuffer sc.lastSpeaker reg).1.map (fun r =>
        { text := r.text, speakerId := r.speaker
          timestamp := (sc.currentStartMs + openDurationMs sc) / 1000
          vadSegment := [sc.currentStartMs, sc.currentStartMs + openDurationMs sc]
          partialFlag := some false }) := by
  obtain ⟨hb, ho, hc, hl⟩ := partialBlock_state partialAsr now nowTs sc
  have hdm := openDurationMs_partialBlock partialAsr now nowTs sc
  have habs : openAbsStartByte (partialBlock partialAsr now nowTs sc).1 =
      openAbsStartByte sc := by
    unfold openAbsStartByte; rw [hc]
  -- the forced-split start byte is clamped to 0
  have hsb : (if openAbsStartByte sc - sc.bufferOffsetBytes < 0 then 0
      else openAbsStartByte sc - sc.bufferOffsetBytes) = (0 : ℤ) := by
    split <;> omega
  have hlen : (0 : ℤ) < (sc.audioBuffer.length : ℤ) := by
    have := List.length_pos.mpr hne
    exact_mod_cast this
  simp only [openPhase, if_pos hopen, if_pos hdur]
  simp only [forcedSplit, habs, hb, ho, hc, hl, hdm, hsb]
  rw [if_pos hlen, pySlice_zero_length, pyDropTo_length]
  refine ⟨rfl, rfl, rfl, ?_, rfl, ?_⟩
  · -- byte exactness of the re-opened start
    have h32 : ((BYTES_PER_MS : ℚ)) ≠ 0 := by norm_num [BYTES_PER_MS]
    rw [add_mul, hexact, openDurationMs, div_mul_cancel₀ _ h32]
    push_cast
    ring
  · -- partial results carry `some true` and are filtered out; forced results kept
    rw [List.filter_append]
    have hp : ((partialBlock partialAsr now nowTs sc).2.filter
        fun r => r.partialFlag == some false) = [] := by
      rw [List.filter_eq_nil_iff]
      intro r hr
      have := (partialBlock_results partialAsr now nowTs sc r hr).2.2
      simp [this]
    rw [hp, List.nil_append]
    have : ∀ l : List SegRes, (l.map (fun r =>
        ({ text := r.text, speakerId := r.speaker
           timestamp := (sc.currentStartMs + openDurationMs sc) / 1000
           vadSegment := [sc.currentStartMs, sc.currentStartMs + openDurationMs sc]
           partialFlag := some false } : StreamResult))).filter
        (fun r => r.partialFlag == some false) = l.map (fun r =>
        ({ text := r.text, speakerId := r.speaker
           timestamp := (sc.currentStartMs + openDurationMs sc) / 1000
           vadSegment := [sc.currentStartMs, sc.currentStartMs + openDurationMs sc]
           partialFlag := some false } : StreamResult)) := by
      intro l
      rw [List.filter_eq_self]
      intro r hr
      simp only [List.mem_map] at hr
      obtain ⟨a, -, rfl⟩ := hr
      rfl
    exact this _

/-- Session state for the C5 witness: 11 s of audio (352000 bytes) opened at
0 ms with the VAD never closing (as after the backlog guard fired). -/
def c5State : SessionCache :=
  { audioBuffer := List.replicate 352000 0
    bufferOffsetBytes := 0
    currentStartMs := 0
    lastSpeaker := none
    lastPartialTime := 0 }

theorem c5State_duration : openDurationMs c5State = 11000 := by
  unfold openDurationMs openAbsStartByte c5State
  dsimp only
  rw [List.length_replicate]
  norm_num [pyInt, BYTES_PER_MS]

theorem c5State_absStart : openAbsStartByte c5State = 0 := by
  unfold openAbsStartByte c5State
  dsimp only
  norm_num [pyInt, BYTES_PER_MS]

/-- Witness for C5: the spec's example — 11 s of audio, VAD never closing:
one non-partial segment spanning the full duration, `open_start_ms` re-opens
at exactly `11000.0`, and the buffer ends empty with the offset advanced by
352000 bytes. -/
theorem c5_forced_split_witness :
    (openPhase (fun _ _ (r : Unit) => ([⟨"long speech content", "X"⟩], r))
        (fun _ => "") 1 2 c5State ()).1.audioBuffer = [] ∧
    (openPhase (fun _ _ (r : Unit) => ([⟨"long speech content", "X"⟩], r))
        (fun _ => "") 1 2 c5State ()).1.bufferOffsetBytes = 352000 ∧
    (openPhase (fun _ _ (r : Unit) => ([⟨"long speech content", "X"⟩], r))
        (fun _ => "") 1 2 c5State ()).1.currentStartMs = 11000 ∧
    ((openPhase (fun _ _ (r : Unit) => ([⟨"long speech content", "X"⟩], r))
        (fun _ => "") 1 2 c5State ()).2.2.filter
          fun r => r.partialFlag == some false) =
      [{ text := "long speech content", speakerId := "X", timestamp := 11
         vadSegment := [0, 11000], partialFlag := some false }] := by
  have hcs : c5State.currentStartMs = 0 := rfl
  have h := c5_forced_split (fun _ _ (r : Unit) => ([⟨"long speech content", "X"⟩], r))
    (fun _ => "") 1 2 c5State ()
    (by rw [hcs]; norm_num)
    (by rw [c5State_duration]; norm_num [MAX_SEGMENT_DURATION_MS])
    (by rw [c5State_absStart]; rfl)
    (by unfold c5State
        dsimp only
        rw [ne_eq, List.replicate_eq_nil_iff]
        norm_num)
    (by rw [c5State_absStart, hcs]; norm_num)
  obtain ⟨hb, ho, hc, -, -, hf⟩ := h
  refine ⟨hb, ?_, ?_, ?_⟩
  · rw [ho]
    unfold c5State
    dsimp only
    rw [List.length_replicate]
    norm_num
  · rw [hc, hcs, c5State_duration]
    norm_num
  · rw [hf, hcs, c5State_duration]
    simp only [List.map_cons, List.map_nil, StreamResult.mk.injEq, List.cons.injEq]
    norm_num

/-! ## Result-flag lemmas for the four emission sites -/

theorem processVadPair_results_flag {ρ : Type}
    (procSeg : List Nat → Option String → ρ → List SegRes × ρ)
    (sc : SessionCache) (reg : ρ) (seg : ℚ × ℚ) :
    ∀ r ∈ (processVadPair procSeg sc reg seg).2.2, r.partialFlag = none := by
  simp only [processVadPair]
  repeat' split
  all_goals
    intro r hr
    first
    | (simp only [List.mem_map] at hr
       obtain ⟨a, -, rfl⟩ := hr
       rfl)
    | simp at hr

theorem processVadSegs_results_flag {ρ : Type}
    (procSeg : List Nat → Option String → ρ → List SegRes × ρ)
    (segs : List (ℚ × ℚ)) (sc : SessionCache) (reg : ρ) :
    ∀ r ∈ (processVadSegs procSeg segs sc reg).2.2, r.partialFlag = none := by
  suffices h : ∀ (segs : List (ℚ × ℚ)) (acc : SessionCache × ρ × List StreamResult),
      (∀ r ∈ acc.2.2, r.partialFlag = none) →
      ∀ r ∈ (segs.foldl
        (fun acc seg =>
          let r := processVadPair procSeg acc.1 acc.2.1 seg
          (r.1, r.2.1, acc.2.2 ++ r.2.2)) acc).2.2, r.partialFlag = none by
    intro r hr
    exact h segs (sc, reg, []) (by simp) r hr
  intro segs
  induction segs with
  | nil => intro acc hacc r hr; exact hacc r hr
  | cons seg rest ih =>
    intro acc hacc r hr
    refine ih _ ?_ r hr
    intro r' hr'
    rcases List.mem_append.mp hr' with h' | h'
    · exact hacc r' h'
    · exact processVadPair_results_flag procSeg acc.1 acc.2.1 seg r' h'

theorem forcedSplit_results_flag {ρ : Type}
    (procSeg : List Nat → Option String → ρ → List SegRes × ρ)
    (sc : SessionCache) (reg : ρ) :
    ∀ r ∈ (forcedSplit procSeg sc reg).2.2, r.partialFlag = some false := by
  simp only [forcedSplit]
  repeat' split
  all_goals
    intro r hr
    first
    | (simp only [List.mem_map] at hr
       obtain ⟨a, -, rfl⟩ := hr
       rfl)
    | simp at hr

theorem finalPhase_results_flag {ρ : Type}
    (procSeg : List Nat → Option String → ρ → List SegRes × ρ)
    (nowFinal : ℚ) (isFinal : Bool) (sc : SessionCache) (reg : ρ) :
    ∀ r ∈ (finalPhase procSeg nowFinal isFinal sc reg).2.2,
      r.partialFlag = some false := by
  simp only [finalPhase]
  split
  all_goals
    intro r hr
    first
    | (simp only [List.mem_map] at hr
       obtain ⟨a, -, rfl⟩ := hr
       rfl)
    | simp at hr

/-! ## Claim C10: partial results -/

/-- C10: every result of a processing step whose `is_partial` field is
`True` carries the fixed speaker label `"Partial"` and an empty boundary
list; moreover the partial-throttle path (the open phase when no forced
split fires) leaves the speaker registry, `last_speaker`, the buffer and
the base offset unchanged — it only ever touches `last_partial_time` and
emits `"Partial"`-labelled results. -/
theorem c10_partial_results {ρ : Type}
    (procSeg : List Nat → Option String → ρ → List SegRes × ρ)
    (partialAsr : List Nat → String) (vadSegs : List (ℚ × ℚ))
    (now nowTs nowFinal : ℚ) (chunk : List Nat) (isFinal : Bool)
    (sc : SessionCache) (reg : ρ) :
    (∀ r ∈ (processChunkSession procSeg partialAsr vadSegs now nowTs nowFinal
        chunk isFinal sc reg).2.2,
      r.partialFlag = some true → r.speakerId = "Partial" ∧ r.vadSegment = []) ∧
    (∀ sc2 : SessionCache, ¬ openDurationMs sc2 > MAX_SEGMENT_DURATION_MS →
      (openPhase procSeg partialAsr now nowTs sc2 reg).2.1 = reg ∧
      (openPhase procSeg partialAsr now nowTs sc2 reg).1.lastSpeaker = sc2.lastSpeaker ∧
      (openPhase procSeg partialAsr now nowTs sc2 reg).1.audioBuffer = sc2.audioBuffer ∧
      (openPhase procSeg partialAsr now nowTs sc2 reg).1.bufferOffsetBytes =
        sc2.bufferOffsetBytes ∧
      ∀ r ∈ (openPhase procSeg partialAsr now nowTs sc2 reg).2.2,
        r.speakerId = "Partial" ∧ r.vadSegment = [] ∧ r.partialFlag = some true) := by
  have hopenAll : ∀ (sc2 : SessionCache) (reg2 : ρ)
      (r : StreamResult), r ∈ (openPhase procSeg partialAsr now nowTs sc2 reg2).2.2 →
      r.partialFlag = some true → r.speakerId = "Partial" ∧ r.vadSegment = [] := by
    intro sc2 reg2 r hr hflag
    unfold openPhase at hr
    by_cases ho : sc2.currentStartMs ≠ -1
    · rw [if_pos ho] at hr
      by_cases hd : openDurationMs sc2 > MAX_SEGMENT_DURATION_MS
      · rw [if_pos hd] at hr
        simp only at hr
        rcases List.mem_append.mp hr with h' | h'
        · obtain ⟨h1, h2, -⟩ := partialBlock_results partialAsr now nowTs sc2 r h'
          exact ⟨h1, h2⟩
        · have := forcedSplit_results_flag procSeg
            (partialBlock partialAsr now nowTs sc2).1 reg2 r h'
          rw [hflag] at this
          cases this
      · rw [if_neg hd] at hr
        simp only at hr
        obtain ⟨h1, h2, -⟩ := partialBlock_results partialAsr now nowTs sc2 r hr
        exact ⟨h1, h2⟩
    · rw [if_neg ho] at hr
      simp at hr
  constructor
  · intro r hr hflag
    unfold processChunkSession at hr
    simp only at hr
    rcases List.mem_append.mp hr with hmain | hfin
    · unfold mainPhases at hmain
      simp only at hmain
      rcases List.mem_append.mp hmain with hv | hop
      · have := processVadSegs_results_flag procSeg _ _ _ r hv
        rw [hflag] at this
        cases this
      · exact hopenAll _ _ r hop hflag
    · have := finalPhase_results_flag procSeg nowFinal isFinal _ _ r hfin
      rw [hflag] at this
      cases this
  · intro sc2 hd
    unfold openPhase
    by_cases ho : sc2.currentStartMs ≠ -1
    · rw [if_pos ho, if_neg hd]
      obtain ⟨hb, hoff, -, hl⟩ := partialBlock_state partialAsr now nowTs sc2
      refine ⟨rfl, hl, hb, hoff, ?_⟩
      exact partialBlock_results partialAsr now nowTs sc2
    · rw [if_neg ho]
      refine ⟨rfl, rfl, rfl, rfl, ?_⟩
      intro r hr
      simp at hr

/-- Dropping from byte 0 is the identity. -/
theorem pySliceFrom_zero {α : Type} (l : List α) : pySliceFrom l 0 = l := by
  rw [pySliceFrom, pySliceIdx_of_nonneg_le le_rfl (by exact_mod_cast Nat.zero_le l.length)]
  simp

/-- `openAbsStartByte` ignores `lastPartialTime`. -/
theorem openAbsStartByte_set_lastPartialTime (sc : SessionCache) (t : ℚ) :
    openAbsStartByte { sc with lastPartialTime := t } = openAbsStartByte sc := rfl

/-- The partial throttle, when it fires with the open start exactly at the
buffer base, a buffer above the minimum length and non-empty partial text:
it stamps `last_partial_time` and emits one `"Partial"` result over the
whole buffer. -/
theorem partialBlock_emit (partialAsr : List Nat → String) (now nowTs : ℚ)
    (sc : SessionCache)
    (h1 : now - sc.lastPartialTime > 0.5) (h2 : openDurationMs sc > 500)
    (h3 : openAbsStartByte sc = sc.bufferOffsetBytes)
    (h4 : minSegmentBytes < (sc.audioBuffer.length : ℚ))
    (h5 : partialAsr sc.audioBuffer ≠ "") :
    partialBlock partialAsr now nowTs sc =
      ({ sc with lastPartialTime := now },
       [{ text := partialAsr sc.audioBuffer, speakerId := "Partial"
          timestamp := nowTs, vadSegment := [], partialFlag := some true }]) := by
  simp only [partialBlock]
  rw [if_pos ⟨h1, h2⟩]
  have hzero : openAbsStartByte { sc with lastPartialTime := now } -
      ({ sc with lastPartialTime := now } : SessionCache).bufferOffsetBytes = 0 := by
    rw [openAbsStartByte_set_lastPartialTime]
    show openAbsStartByte sc - sc.bufferOffsetBytes = 0
    rw [h3, sub_self]
  rw [hzero, if_neg (lt_irrefl (0 : ℤ)), pySliceFrom_zero]
  rw [if_pos (show minSegmentBytes <
    ((({ sc with lastPartialTime := now } : SessionCache).audioBuffer.length : ℕ) : ℚ) from h4)]
  rw [if_pos (show partialAsr ({ sc with lastPartialTime := now } : SessionCache).audioBuffer ≠ "" from h5)]

/-- The backlog guard does not fire. -/
theorem backlogGuard_skip (sc : SessionCache)
    (h : ¬ (sc.currentStartMs = -1 ∧
      (sc.audioBuffer.length : ℤ) > (SAMPLE_RATE : ℤ) * (BYTES_PER_SAMPLE : ℤ) * 5)) :
    backlogGuard sc = sc := by
  unfold backlogGuard
  rw [if_neg h]

/-- A non-final call never reaches the teardown branch. -/
theorem finalPhase_not_final {ρ : Type}
    (procSeg : List Nat → Option String → ρ → List SegRes × ρ)
    (nowFinal : ℚ) (sc : SessionCache) (reg : ρ) :
    finalPhase procSeg nowFinal false sc reg = (some sc, reg, []) := by
  unfold finalPhase
  rw [if_neg]
  simp

/-- An empty chunk reports no VAD pairs; with the backlog guard idle and no
forced split, the main phases reduce to the partial throttle alone. -/
theorem mainPhases_empty_chunk {ρ : Type}
    (procSeg : List Nat → Option String → ρ → List SegRes × ρ)
    (partialAsr : List Nat → String) (vadSegs : List (ℚ × ℚ))
    (now nowTs : ℚ) (sc : SessionCache) (reg : ρ)
    (hbl : ¬ (sc.currentStartMs = -1 ∧
      (sc.audioBuffer.length : ℤ) > (SAMPLE_RATE : ℤ) * (BYTES_PER_SAMPLE : ℤ) * 5))
    (hopen : sc.currentStartMs ≠ -1)
    (hnofs : ¬ openDurationMs sc > MAX_SEGMENT_DURATION_MS) :
    mainPhases procSeg partialAsr vadSegs now nowTs [] sc reg =
      ((partialBlock partialAsr now nowTs sc).1, reg,
        (partialBlock partialAsr now nowTs sc).2) := by
  unfold mainPhases
  have hself : ({ sc with audioBuffer := sc.audioBuffer ++ ([] : List Nat) } :
      SessionCache) = sc := by
    rw [List.append_nil]
  rw [hself]
  simp only [List.isEmpty_nil, ite_true, if_true]
  have hv : processVadSegs procSeg [] sc reg = (sc, reg, []) := rfl
  rw [hv, backlogGuard_skip sc hbl]
  unfold openPhase
  rw [if_pos hopen, if_neg hnofs]
  simp

/-- Session state for the C10 witness: an open span of 501 ms (16032 bytes)
whose throttle interval has elapsed. -/
def c10State : SessionCache :=
  { audioBuffer := List.replicate 16032 0
    bufferOffsetBytes := 0
    currentStartMs := 0
    lastSpeaker := none
    lastPartialTime := 0 }

/-- The partial result the C10 witness expects. -/
def c10Res : StreamResult :=
  { text := "hi"
    speakerId := "Partial"
    timestamp := 5
    vadSegment := []
    partialFlag := some true }

theorem c10State_duration : openDurationMs c10State = 501 := by
  unfold openDurationMs openAbsStartByte c10State
  dsimp only
  rw [List.length_replicate]
  norm_num [pyInt, BYTES_PER_MS]

theorem c10_partialBlock_eval :
    partialBlock (fun _ => "hi") 1 5 c10State =
      ({ c10State with lastPartialTime := 1 }, [c10Res]) := by
  rw [partialBlock_emit (fun _ => "hi") 1 5 c10State
    (by unfold c10State; norm_num)
    (by rw [c10State_duration]; norm_num)
    (by unfold openAbsStartByte c10State; dsimp only; norm_num [pyInt])
    (by unfold c10State
        dsimp only
        rw [List.length_replicate]
        norm_num [minSegmentBytes, SAMPLE_RATE, MIN_SEGMENT_LEN_SEC, BYTES_PER_SAMPLE])
    (by decide)]
  rfl

theorem c10_step_eval :
    processChunkSession (fun _ _ (r : Unit) => ([], r)) (fun _ => "hi") [] 1 5 0
      [] false c10State () =
      (some { c10State with lastPartialTime := 1 }, (), [c10Res]) := by
  unfold processChunkSession
  rw [mainPhases_empty_chunk (fun _ _ (r : Unit) => ([], r)) (fun _ => "hi") [] 1 5
    c10State ()
    (by unfold c10State; dsimp only; norm_num)
    (by unfold c10State; dsimp only; norm_num)
    (by rw [c10State_duration]; norm_num [MAX_SEGMENT_DURATION_MS])]
  rw [c10_partialBlock_eval]
  simp only [finalPhase_not_final, List.append_nil]

/-- Witness for C10: a concrete open span emits exactly one partial result,
labelled `"Partial"` with empty boundaries (via the theorem), and the
partial path leaves `last_speaker`, buffer and offset untouched. -/
theorem c10_partial_results_witness :
    (processChunkSession (fun _ _ (r : Unit) => ([], r)) (fun _ => "hi") [] 1 5 0
        [] false c10State ()).2.2 = [c10Res] ∧
    c10Res.speakerId = "Partial" ∧
    c10Res.vadSegment = [] ∧
    (openPhase (fun _ _ (r : Unit) => ([], r)) (fun _ => "hi") 1 5 c10State ()).1.lastSpeaker =
      c10State.lastSpeaker ∧
    (openPhase (fun _ _ (r : Unit) => ([], r)) (fun _ => "hi") 1 5 c10State ()).1.audioBuffer =
      c10State.audioBuffer := by
  have happ := c10_partial_results (fun _ _ (r : Unit) => ([], r)) (fun _ => "hi")
    [] 1 5 0 [] false c10State ()
  have hmem : c10Res ∈
      (processChunkSession (fun _ _ (r : Unit) => ([], r)) (fun _ => "hi") [] 1 5 0
        [] false c10State ()).2.2 := by
    rw [c10_step_eval]
    exact List.mem_singleton.mpr rfl
  have hprops := happ.1 _ hmem rfl
  have hff := happ.2 c10State (by rw [c10State_duration]; norm_num [MAX_SEGMENT_DURATION_MS])
  exact ⟨by rw [c10_step_eval], hprops.1, hprops.2, hff.2.1, hff.2.2.1⟩

/-! ## Byte-accounting lemmas (claim C4) -/

/-- One VAD pair with an in-range close: the base offset grows exactly by
the number of bytes removed from the buffer, never decreases, and the
buffer never grows. -/
theorem processVadPair_accounting {ρ : Type}
    (procSeg : List Nat → Option String → ρ → List SegRes × ρ)
    (sc : SessionCache) (reg : ρ) (seg : ℚ × ℚ) (hok : pairOk sc seg) :
    (processVadPair procSeg sc reg seg).1.bufferOffsetBytes =
      sc.bufferOffsetBytes +
        ((sc.audioBuffer.length : ℤ) -
          ((processVadPair procSeg sc reg seg).1.audioBuffer.length : ℤ)) ∧
    sc.bufferOffsetBytes ≤ (processVadPair procSeg sc reg seg).1.bufferOffsetBytes ∧
    (processVadPair procSeg sc reg seg).1.audioBuffer.length ≤
      sc.audioBuffer.length := by
  simp only [processVadPair]
  set sc1 := if seg.1 ≠ -1 then { sc with currentStartMs := seg.1 } else sc with hsc1
  have hbuf1 : sc1.audioBuffer = sc.audioBuffer := by
    rw [hsc1]; split <;> rfl
  have hoff1 : sc1.bufferOffsetBytes = sc.bufferOffsetBytes := by
    rw [hsc1]; split <;> rfl
  by_cases he : seg.2 ≠ -1
  · rw [if_pos he]
    by_cases hst : sc1.currentStartMs ≠ -1
    · rw [if_pos hst]
      by_cases hcl : pyInt (seg.2 * (BYTES_PER_MS : ℚ)) - sc1.bufferOffsetBytes >
          (sc1.audioBuffer.length : ℤ) ∧
          pyInt (seg.2 * (BYTES_PER_MS : ℚ)) - sc1.bufferOffsetBytes -
            (sc1.audioBuffer.length : ℤ) < 3200
      · rw [if_pos hcl, if_pos (le_refl _)]
        dsimp only
        rw [hbuf1, hoff1, pyDropTo_length]
        simp only [List.length_nil, Nat.cast_zero]
        omega
      · rw [if_neg hcl]
        by_cases hle : pyInt (seg.2 * (BYTES_PER_MS : ℚ)) - sc1.bufferOffsetBytes ≤
            (sc1.audioBuffer.length : ℤ)
        · rw [if_pos hle]
          have h0 : 0 ≤ pyInt (seg.2 * (BYTES_PER_MS : ℚ)) - sc1.bufferOffsetBytes := by
            rcases hok (by simpa using he) with h | h
            · rw [hoff1]; exact h
            · exfalso
              rw [hoff1, hbuf1] at hle
              omega
          have hdrop := pyDropTo_len_of_nonneg_le sc1.audioBuffer h0 hle
          dsimp only
          rw [hbuf1, hoff1] at *
          refine ⟨by omega, by omega, ?_⟩
          omega
        · rw [if_neg hle]
          dsimp only
          rw [hbuf1, hoff1]
          omega
    · rw [if_neg hst]
      rw [hbuf1, hoff1]
      omega
  · rw [if_neg he]
    rw [hbuf1, hoff1]
    omega

/-- The VAD fold over an arbitrary accumulated result list: the state does
not depend on it, and results accumulate on its right. -/
theorem processVadSegs_shift {ρ : Type}
    (procSeg : List Nat → Option String → ρ → List SegRes × ρ) :
    ∀ (segs : List (ℚ × ℚ)) (sc : SessionCache) (reg : ρ)
      (res : List StreamResult),
      segs.foldl
        (fun acc seg =>
          let r := processVadPair procSeg acc.1 acc.2.1 seg
          (r.1, r.2.1, acc.2.2 ++ r.2.2)) (sc, reg, res) =
      ((processVadSegs procSeg segs sc reg).1,
       (processVadSegs procSeg segs sc reg).2.1,
       res ++ (processVadSegs procSeg segs sc reg).2.2) := by
  intro segs
  induction segs with
  | nil =>
    intro sc reg res
    show (sc, reg, res) = (sc, reg, res ++ [])
    rw [List.append_nil]
  | cons seg rest ih =>
    intro sc reg res
    rw [List.foldl_cons]
    dsimp only
    rw [ih]
    conv_rhs => rw [processVadSegs]
    rw [List.foldl_cons]
    dsimp only
    rw [ih]
    simp [List.append_assoc]

/-- Cons form of `processVadSegs`. -/
theorem processVadSegs_cons {ρ : Type}
    (procSeg : List Nat → Option String → ρ → List SegRes × ρ)
    (seg : ℚ × ℚ) (rest : List (ℚ × ℚ)) (sc : SessionCache) (reg : ρ) :
    processVadSegs procSeg (seg :: rest) sc reg =
      ((processVadSegs procSeg rest (processVadPair procSeg sc reg seg).1
          (processVadPair procSeg sc reg seg).2.1).1,
       (processVadSegs procSeg rest (processVadPair procSeg sc reg seg).1
          (processVadPair procSeg sc reg seg).2.1).2.1,
       (processVadPair procSeg sc reg seg).2.2 ++
         (processVadSegs procSeg rest (processVadPair procSeg sc reg seg).1
          (processVadPair procSeg sc reg seg).2.1).2.2) := by
  rw [processVadSegs, List.foldl_cons]
  dsimp only
  rw [processVadSegs_shift]
  simp

/-- Fold accounting: across a list of in-range VAD pairs, the offset grows
by exactly the bytes removed, monotonically. -/
theorem processVadSegs_accounting {ρ : Type}
    (procSeg : List Nat → Option String → ρ → List SegRes × ρ) :
    ∀ (segs : List (ℚ × ℚ)) (sc : SessionCache) (reg : ρ),
      pairsOk procSeg sc reg segs →
      (processVadSegs procSeg segs sc reg).1.bufferOffsetBytes =
        sc.bufferOffsetBytes +
          ((sc.audioBuffer.length : ℤ) -
            ((processVadSegs procSeg segs sc reg).1.audioBuffer.length : ℤ)) ∧
      sc.bufferOffsetBytes ≤
        (processVadSegs procSeg segs sc reg).1.bufferOffsetBytes ∧
      (processVadSegs procSeg segs sc reg).1.audioBuffer.length ≤
        sc.audioBuffer.length := by
  intro segs
  induction segs with
  | nil =>
    intro sc reg _
    have h : processVadSegs procSeg [] sc reg = (sc, reg, []) := rfl
    rw [h]
    dsimp only
    exact ⟨by omega, le_refl _, le_refl _⟩
  | cons seg rest ih =>
    intro sc reg hok
    obtain ⟨h1, h2⟩ := hok
    have hp := processVadPair_accounting procSeg sc reg seg h1
    have hr := ih (processVadPair procSeg sc reg seg).1
      (processVadPair procSeg sc reg seg).2.1 h2
    rw [processVadSegs_cons]
    dsimp only
    refine ⟨by omega, by omega, by omega⟩

/-- The backlog guard never touches the buffer or the offset. -/
theorem backlogGuard_accounting (sc : SessionCache) :
    (backlogGuard sc).audioBuffer = sc.audioBuffer ∧
    (backlogGuard sc).bufferOffsetBytes = sc.bufferOffsetBytes := by
  unfold backlogGuard
  split <;> exact ⟨rfl, rfl⟩

/-- The forced split consumes the whole buffer (or nothing): exact, monotone
offset accounting with no hypotheses. -/
theorem forcedSplit_accounting {ρ : Type}
    (procSeg : List Nat → Option String → ρ → List SegRes × ρ)
    (sc : SessionCache) (reg : ρ) :
    (forcedSplit procSeg sc reg).1.bufferOffsetBytes =
      sc.bufferOffsetBytes +
        ((sc.audioBuffer.length : ℤ) -
          ((forcedSplit procSeg sc reg).1.audioBuffer.length : ℤ)) ∧
    sc.bufferOffsetBytes ≤ (forcedSplit procSeg sc reg).1.bufferOffsetBytes ∧
    (forcedSplit procSeg sc reg).1.audioBuffer.length ≤ sc.audioBuffer.length := by
  simp only [forcedSplit]
  repeat' split
  all_goals try rw [pyDropTo_length]
  all_goals try simp only [List.length_nil, Nat.cast_zero]
  all_goals omega

/-- Open-phase accounting (partial throttle plus forced split): exact,
monotone offset accounting with no hypotheses. -/
theorem openPhase_accounting {ρ : Type}
    (procSeg : List Nat → Option String → ρ → List SegRes × ρ)
    (partialAsr : List Nat → String) (now nowTs : ℚ) (sc : SessionCache)
    (reg : ρ) :
    (openPhase procSeg partialAsr now nowTs sc reg).1.bufferOffsetBytes =
      sc.bufferOffsetBytes +
        ((sc.audioBuffer.length : ℤ) -
          ((openPhase procSeg partialAsr now nowTs sc reg).1.audioBuffer.length : ℤ)) ∧
    sc.bufferOffsetBytes ≤
      (openPhase procSeg partialAsr now nowTs sc reg).1.bufferOffsetBytes ∧
    (openPhase procSeg partialAsr now nowTs sc reg).1.audioBuffer.length ≤
      sc.audioBuffer.length := by
  obtain ⟨hb, ho, -, -⟩ := partialBlock_state partialAsr now nowTs sc
  simp only [openPhase]
  split
  · split
    · have hf := forcedSplit_accounting procSeg
        (partialBlock partialAsr now nowTs sc).1 reg
      rw [hb, ho] at hf
      exact hf
    · rw [hb, ho]
      omega
  · dsimp only
    omega

/-- Main-phase accounting: given in-range VAD closes, the offset after one
non-final step grows by exactly the bytes consumed (appended plus previous
buffer minus remaining buffer), is monotone, and the remaining buffer never
exceeds what was available. -/
theorem mainPhases_accounting {ρ : Type}
    (procSeg : List Nat → Option String → ρ → List SegRes × ρ)
    (partialAsr : List Nat → String) (vadSegs : List (ℚ × ℚ))
    (now nowTs : ℚ) (chunk : List Nat) (sc : SessionCache) (reg : ρ)
    (hok : pairsOk procSeg { sc with audioBuffer := sc.audioBuffer ++ chunk } reg
      (if chunk.isEmpty then [] else vadSegs)) :
    (mainPhases procSeg partialAsr vadSegs now nowTs chunk sc reg).1.bufferOffsetBytes =
      sc.bufferOffsetBytes +
        (((sc.audioBuffer.length : ℤ) + (chunk.length : ℤ)) -
          ((mainPhases procSeg partialAsr vadSegs now nowTs chunk sc reg).1.audioBuffer.length : ℤ)) ∧
    sc.bufferOffsetBytes ≤
      (mainPhases procSeg partialAsr vadSegs now nowTs chunk sc reg).1.bufferOffsetBytes ∧
    (mainPhases procSeg partialAsr vadSegs now nowTs chunk sc reg).1.audioBuffer.length ≤
      sc.audioBuffer.length + chunk.length := by
  simp only [mainPhases]
  have hv := processVadSegs_accounting procSeg (if chunk.isEmpty then [] else vadSegs)
    { sc with audioBuffer := sc.audioBuffer ++ chunk } reg hok
  set v := processVadSegs procSeg (if chunk.isEmpty then [] else vadSegs)
    { sc with audioBuffer := sc.audioBuffer ++ chunk } reg with hvdef
  obtain ⟨hbg1, hbg2⟩ := backlogGuard_accounting v.1
  have hop := openPhase_accounting procSeg partialAsr now nowTs (backlogGuard v.1) v.2.1
  dsimp only at hv ⊢
  rw [List.length_append] at hv
  rw [hbg1, hbg2] at hop
  push_cast at hv hop ⊢
  refine ⟨by omega, by omega, ?_⟩
  have h3 := hop.2.2
  have h4 := hv.2.2
  omega

/-- Trace-level accounting: over any run of in-range non-final steps the
offset advances by exactly the bytes consumed and never decreases. -/
theorem runTrace_accounting {ρ : Type}
    (procSeg : List Nat → Option String → ρ → List SegRes × ρ)
    (partialAsr : List Nat → String) :
    ∀ (steps : List StepInput) (sc : SessionCache) (reg : ρ),
      traceOk procSeg partialAsr sc reg steps →
      (runTrace procSeg partialAsr steps sc reg).1.bufferOffsetBytes =
        sc.bufferOffsetBytes +
          ((sc.audioBuffer.length : ℤ) + totalAppended steps -
            ((runTrace procSeg partialAsr steps sc reg).1.audioBuffer.length : ℤ)) ∧
      sc.bufferOffsetBytes ≤
        (runTrace procSeg partialAsr steps sc reg).1.bufferOffsetBytes := by
  intro steps
  induction steps with
  | nil =>
    intro sc reg _
    have h0 : runTrace procSeg partialAsr [] sc reg = (sc, reg) := rfl
    rw [h0, totalAppended]
    dsimp only
    exact ⟨by omega, le_refl _⟩
  | cons st rest ih =>
    intro sc reg hok
    obtain ⟨h1, h2⟩ := hok
    have hm := mainPhases_accounting procSeg partialAsr st.vadSegs st.now st.nowTs
      st.chunk sc reg h1
    have hr := ih _ _ h2
    rw [show runTrace procSeg partialAsr (st :: rest) sc reg =
      runTrace procSeg partialAsr rest
        (mainPhases procSeg partialAsr st.vadSegs st.now st.nowTs st.chunk sc reg).1
        (mainPhases procSeg partialAsr st.vadSegs st.now st.nowTs st.chunk sc reg).2.1
      from rfl] at *
    rw [totalAppended]
    omega

/-- `runTrace` splits over list append. -/
theorem runTrace_append {ρ : Type}
    (procSeg : List Nat → Option String → ρ → List SegRes × ρ)
    (partialAsr : List Nat → String) :
    ∀ (l1 l2 : List StepInput) (sc : SessionCache) (reg : ρ),
      runTrace procSeg partialAsr (l1 ++ l2) sc reg =
        runTrace procSeg partialAsr l2
          (runTrace procSeg partialAsr l1 sc reg).1
          (runTrace procSeg partialAsr l1 sc reg).2 := by
  intro l1
  induction l1 with
  | nil => intro l2 sc reg; rfl
  | cons st rest ih =>
    intro l2 sc reg
    rw [List.cons_append]
    show runTrace procSeg partialAsr (rest ++ l2) _ _ = _
    rw [ih]
    rw [show runTrace procSeg partialAsr (st :: rest) sc reg =
      runTrace procSeg partialAsr rest
        (mainPhases procSeg partialAsr st.vadSegs st.now st.nowTs st.chunk sc reg).1
        (mainPhases procSeg partialAsr st.vadSegs st.now st.nowTs st.chunk sc reg).2.1
      from rfl]

/-- A trace prefix of an in-range trace is in range. -/
theorem traceOk_append_left {ρ : Type}
    (procSeg : List Nat → Option String → ρ → List SegRes × ρ)
    (partialAsr : List Nat → String) :
    ∀ (l1 l2 : List StepInput) (sc : SessionCache) (reg : ρ),
      traceOk procSeg partialAsr sc reg (l1 ++ l2) →
      traceOk procSeg partialAsr sc reg l1 := by
  intro l1
  induction l1 with
  | nil => intro l2 sc reg _; trivial
  | cons st rest ih =>
    intro l2 sc reg h
    exact ⟨h.1, ih l2 _ _ h.2⟩

/-- The suffix of an in-range trace is in range from the intermediate
state. -/
theorem traceOk_append_right {ρ : Type}
    (procSeg : List Nat → Option String → ρ → List SegRes × ρ)
    (partialAsr : List Nat → String) :
    ∀ (l1 l2 : List StepInput) (sc : SessionCache) (reg : ρ),
      traceOk procSeg partialAsr sc reg (l1 ++ l2) →
      traceOk procSeg partialAsr (runTrace procSeg partialAsr l1 sc reg).1
        (runTrace procSeg partialAsr l1 sc reg).2 l2 := by
  intro l1
  induction l1 with
  | nil => intro l2 sc reg h; exact h
  | cons st rest ih =>
    intro l2 sc reg h
    exact ih l2 _ _ h.2

/-! ## Claim C4: offset conservation -/

/-- A 10 ms chunk whose VAD close consumes it exactly (for the C4 trace
witness and counterexample). -/
def c4Step1 : StepInput :=
  { chunk := List.replicate 320 0, vadSegs := [(0, 10)], now := 0, nowTs := 0 }

/-- A second 10 ms chunk whose VAD close points *before* the current base
offset (an out-of-order close): `end_ms = 5` while 320 bytes were already
consumed. -/
def c4Step2 : StepInput :=
  { chunk := List.replicate 320 0, vadSegs := [(0, 5)], now := 0, nowTs := 0 }

/-- C4 (amended): starting from a fresh session, over any sequence of
non-final steps whose VAD closes are in range (`traceOk`: no close maps to a
byte position before the current base offset unless it overshoots the
buffer), after every step the base offset equals the total bytes appended
minus the bytes still buffered — i.e. exactly the total bytes consumed so
far — and the offset is monotonically non-decreasing from step to step. -/
theorem c4_offset_conservation {ρ : Type}
    (procSeg : List Nat → Option String → ρ → List SegRes × ρ)
    (partialAsr : List Nat → String) (reg : ρ) (steps : List StepInput) (k : ℕ)
    (hok : traceOk procSeg partialAsr initSessionCache reg steps) :
    (runTrace procSeg partialAsr (steps.take k) initSessionCache reg).1.bufferOffsetBytes =
      totalAppended (steps.take k) -
        ((runTrace procSeg partialAsr (steps.take k) initSessionCache
          reg).1.audioBuffer.length : ℤ) ∧
    (runTrace procSeg partialAsr (steps.take k) initSessionCache reg).1.bufferOffsetBytes ≤
      (runTrace procSeg partialAsr (steps.take (k + 1)) initSessionCache
        reg).1.bufferOffsetBytes := by
  have hk : traceOk procSeg partialAsr initSessionCache reg (steps.take k) := by
    refine traceOk_append_left procSeg partialAsr (steps.take k) (steps.drop k) _ _ ?_
    rw [List.take_append_drop]
    exact hok
  have hk1 : traceOk procSeg partialAsr initSessionCache reg (steps.take (k + 1)) := by
    refine traceOk_append_left procSeg partialAsr (steps.take (k + 1))
      (steps.drop (k + 1)) _ _ ?_
    rw [List.take_append_drop]
    exact hok
  have hcons := runTrace_accounting procSeg partialAsr (steps.take k)
    initSessionCache reg hk
  constructor
  · have : initSessionCache.bufferOffsetBytes = 0 := rfl
    have hb : initSessionCache.audioBuffer = [] := rfl
    rw [this, hb] at hcons
    simpa using hcons.1
  · have hsplit : steps.take (k + 1) = steps.take k ++ (steps.drop k).take 1 := by
      rw [← List.take_add]
    rw [hsplit, runTrace_append]
    have hsuffix : traceOk procSeg partialAsr
        (runTrace procSeg partialAsr (steps.take k) initSessionCache reg).1
        (runTrace procSeg partialAsr (steps.take k) initSessionCache reg).2
        ((steps.drop k).take 1) := by
      refine traceOk_append_right procSeg partialAsr (steps.take k)
        ((steps.drop k).take 1) _ _ ?_
      rw [← hsplit]
      exact hk1
    have := (runTrace_accounting procSeg partialAsr ((steps.drop k).take 1) _ _ hsuffix).2
    exact this

/-- Dropping from a replicated list. -/
theorem drop_replicate {α : Type} (a : α) :
    ∀ (m n : ℕ), (List.replicate m a).drop n = List.replicate (m - n) a
  | m, 0 => by simp
  | 0, n + 1 => by simp
  | m + 1, n + 1 => by
    rw [List.replicate_succ, List.drop_succ_cons, drop_replicate a m n,
      Nat.succ_sub_succ]

/-- A VAD close inside the buffer (no clamp): the consume branch, spelled
out. -/
theorem processVadPair_consume {ρ : Type}
    (procSeg : List Nat → Option String → ρ → List SegRes × ρ)
    (sc : SessionCache) (reg : ρ) (startMs endMs : ℚ)
    (hs : startMs ≠ -1) (he : endMs ≠ -1)
    (hnc : ¬ (pyInt (endMs * (BYTES_PER_MS : ℚ)) - sc.bufferOffsetBytes >
        (sc.audioBuffer.length : ℤ) ∧
      pyInt (endMs * (BYTES_PER_MS : ℚ)) - sc.bufferOffsetBytes -
        (sc.audioBuffer.length : ℤ) < 3200))
    (hle : pyInt (endMs * (BYTES_PER_MS : ℚ)) - sc.bufferOffsetBytes ≤
      (sc.audioBuffer.length : ℤ)) :
    processVadPair procSeg sc reg (startMs, endMs) =
      (let endByte := pyInt (endMs * (BYTES_PER_MS : ℚ)) - sc.bufferOffsetBytes
       let startByte0 := pyInt (startMs * (BYTES_PER_MS : ℚ)) - sc.bufferOffsetBytes
       let startByte := if startByte0 < 0 then 0 else startByte0
       let pr := procSeg (pySlice sc.audioBuffer startByte endByte) sc.lastSpeaker reg
       ({ sc with audioBuffer := pyDropTo sc.audioBuffer endByte
                  bufferOffsetBytes := sc.bufferOffsetBytes + endByte
                  lastSpeaker := updateLastSpeaker sc.lastSpeaker pr.1
                  currentStartMs := -1 },
        pr.2,
        pr.1.map fun r =>
          { text := r.text, speakerId := r.speaker, timestamp := endMs / 1000
            vadSegment := [startMs, endMs], partialFlag := none })) := by
  simp only [processVadPair]
  rw [if_pos hs]
  dsimp only
  rw [if_pos he, if_pos hs, if_neg hnc, if_pos hle]

/-- A step whose single VAD pair closes the span with a small buffer: the
backlog guard and the open phase are inert, so the step reduces to the pair
processing alone. -/
theorem mainPhases_one_pair {ρ : Type}
    (procSeg : List Nat → Option String → ρ → List SegRes × ρ)
    (partialAsr : List Nat → String) (now nowTs : ℚ) (chunk : List Nat)
    (sc : SessionCache) (reg : ρ) (seg : ℚ × ℚ)
    (hch : chunk.isEmpty = false)
    (h1 : (processVadPair procSeg { sc with audioBuffer := sc.audioBuffer ++ chunk }
      reg seg).1.currentStartMs = -1)
    (h2 : ¬ ((processVadPair procSeg { sc with audioBuffer := sc.audioBuffer ++ chunk }
      reg seg).1.audioBuffer.length : ℤ) >
        (SAMPLE_RATE : ℤ) * (BYTES_PER_SAMPLE : ℤ) * 5) :
    mainPhases procSeg partialAsr [seg] now nowTs chunk sc reg =
      ((processVadPair procSeg { sc with audioBuffer := sc.audioBuffer ++ chunk }
          reg seg).1,
       (processVadPair procSeg { sc with audioBuffer := sc.audioBuffer ++ chunk }
          reg seg).2.1,
       (processVadPair procSeg { sc with audioBuffer := sc.audioBuffer ++ chunk }
          reg seg).2.2) := by
  unfold mainPhases
  rw [hch]
  simp only [Bool.false_eq_true, if_false, ite_false]
  rw [processVadSegs_cons]
  have hnil : ∀ (s : SessionCache) (r : ρ), processVadSegs procSeg [] s r = (s, r, []) :=
    fun _ _ => rfl
  rw [hnil]
  dsimp only
  rw [backlogGuard_skip _ (by
    intro hc
    exact h2 hc.2)]
  unfold openPhase
  rw [if_neg (by rw [h1]; norm_num)]
  simp

/-- State after the first C4 step: 320 bytes consumed exactly. -/
def c4S1 : SessionCache :=
  { audioBuffer := []
    bufferOffsetBytes := 320
    currentStartMs := -1
    lastSpeaker := none
    lastPartialTime := 0 }

/-- State after the second C4 step: the out-of-order close deleted 160
bytes via Python's negative-slice semantics and *decreased* the offset to
160. -/
def c4S2 : SessionCache :=
  { audioBuffer := List.replicate 160 0
    bufferOffsetBytes := 160
    currentStartMs := -1
    lastSpeaker := none
    lastPartialTime := 0 }

set_option maxRecDepth 40000 in
theorem c4_pv1 :
    processVadPair (fun _ _ (r : Unit) => ([], r))
      ⟨List.replicate 320 0, 0, -1, none, 0⟩ () (0, 10) = (c4S1, (), []) := by
  have hpy : pyInt ((10 : ℚ) * (BYTES_PER_MS : ℚ)) = 320 := by
    norm_num [pyInt, BYTES_PER_MS]
  rw [processVadPair_consume (fun _ _ (r : Unit) => ([], r))
    ⟨List.replicate 320 0, 0, -1, none, 0⟩ () 0 10 (by norm_num) (by norm_num)
    (by simp only [hpy]; decide) (by simp only [hpy]; decide)]
  simp only [hpy]
  decide

set_option maxRecDepth 40000 in
theorem c4_main1 :
    mainPhases (fun _ _ (r : Unit) => ([], r)) (fun _ => "") [(0, 10)] 0 0
      (List.replicate 320 0) initSessionCache () = (c4S1, (), []) := by
  have hA : ({ initSessionCache with
      audioBuffer := initSessionCache.audioBuffer ++ List.replicate 320 0 } :
        SessionCache) = ⟨List.replicate 320 0, 0, -1, none, 0⟩ := by
    show ({ audioBuffer := [] ++ List.replicate 320 0, bufferOffsetBytes := 0
            currentStartMs := -1, lastSpeaker := none, lastPartialTime := 0 } :
          SessionCache) = _
    rw [List.nil_append]
  rw [mainPhases_one_pair (fun _ _ (r : Unit) => ([], r)) (fun _ => "") 0 0
    (List.replicate 320 0) initSessionCache () (0, 10)
    (by decide)
    (by rw [hA, c4_pv1]; rfl)
    (by rw [hA, c4_pv1]; decide)]
  rw [hA, c4_pv1]

theorem c4_run1 :
    runTrace (fun _ _ (r : Unit) => ([], r)) (fun _ => "") [c4Step1]
      initSessionCache () = (c4S1, ()) := by
  show ((mainPhases (fun _ _ (r : Unit) => ([], r)) (fun _ => "") [(0, 10)] 0 0
      (List.replicate 320 0) initSessionCache ()).1,
    (mainPhases (fun _ _ (r : Unit) => ([], r)) (fun _ => "") [(0, 10)] 0 0
      (List.replicate 320 0) initSessionCache ()).2.1) = (c4S1, ())
  rw [c4_main1]

set_option maxRecDepth 40000 in
theorem c4_pv2 :
    processVadPair (fun _ _ (r : Unit) => ([], r))
      ⟨List.replicate 320 0, 320, -1, none, 0⟩ () (0, 5) = (c4S2, (), []) := by
  have hpy : pyInt ((5 : ℚ) * (BYTES_PER_MS : ℚ)) = 160 := by
    norm_num [pyInt, BYTES_PER_MS]
  rw [processVadPair_consume (fun _ _ (r : Unit) => ([], r))
    ⟨List.replicate 320 0, 320, -1, none, 0⟩ () 0 5 (by norm_num) (by norm_num)
    (by simp only [hpy]; decide) (by simp only [hpy]; decide)]
  simp only [hpy]
  decide

set_option maxRecDepth 40000 in
theorem c4_main2 :
    mainPhases (fun _ _ (r : Unit) => ([], r)) (fun _ => "") [(0, 5)] 0 0
      (List.replicate 320 0) c4S1 () = (c4S2, (), []) := by
  have hA : ({ c4S1 with
      audioBuffer := c4S1.audioBuffer ++ List.replicate 320 0 } : SessionCache) =
      ⟨List.replicate 320 0, 320, -1, none, 0⟩ := by
    show ({ audioBuffer := [] ++ List.replicate 320 0, bufferOffsetBytes := 320
            currentStartMs := -1, lastSpeaker := none, lastPartialTime := 0 } :
          SessionCache) = _
    rw [List.nil_append]
  rw [mainPhases_one_pair (fun _ _ (r : Unit) => ([], r)) (fun _ => "") 0 0
    (List.replicate 320 0) c4S1 () (0, 5)
    (by decide)
    (by rw [hA, c4_pv2]; rfl)
    (by rw [hA, c4_pv2]; decide)]
  rw [hA, c4_pv2]

theorem c4_run2 :
    runTrace (fun _ _ (r : Unit) => ([], r)) (fun _ => "") [c4Step1, c4Step2]
      initSessionCache () = (c4S2, ()) := by
  show runTrace (fun _ _ (r : Unit) => ([], r)) (fun _ => "") [c4Step2]
    (mainPhases (fun _ _ (r : Unit) => ([], r)) (fun _ => "") [(0, 10)] 0 0
      (List.replicate 320 0) initSessionCache ()).1
    (mainPhases (fun _ _ (r : Unit) => ([], r)) (fun _ => "") [(0, 10)] 0 0
      (List.replicate 320 0) initSessionCache ()).2.1 = (c4S2, ())
  rw [c4_main1]
  show ((mainPhases (fun _ _ (r : Unit) => ([], r)) (fun _ => "") [(0, 5)] 0 0
      (List.replicate 320 0) c4S1 ()).1,
    (mainPhases (fun _ _ (r : Unit) => ([], r)) (fun _ => "") [(0, 5)] 0 0
      (List.replicate 320 0) c4S1 ()).2.1) = (c4S2, ())
  rw [c4_main2]

set_option maxRecDepth 40000 in
/-- C4 (counterexample): an out-of-order VAD close (end 5 ms after 320 bytes
were already consumed up to 10 ms) maps to the negative byte index -160;
Python slicing then deletes 160 buffered bytes while `buffer_offset_bytes +=
-160` *decreases* the offset from 320 to 160.  With 640 bytes appended and
160 still buffered, the offset (160) no longer equals total bytes consumed
(640 - 160 = 480), and monotonicity fails (320 → 160). -/
theorem c4_out_of_order_close_counterexample :
    (runTrace (fun _ _ (r : Unit) => ([], r)) (fun _ => "") [c4Step1]
      initSessionCache ()).1.bufferOffsetBytes = 320 ∧
    (runTrace (fun _ _ (r : Unit) => ([], r)) (fun _ => "") [c4Step1, c4Step2]
      initSessionCache ()).1.bufferOffsetBytes = 160 ∧
    totalAppended [c4Step1, c4Step2] = 640 ∧
    ((runTrace (fun _ _ (r : Unit) => ([], r)) (fun _ => "") [c4Step1, c4Step2]
      initSessionCache ()).1.audioBuffer.length : ℤ) = 160 := by
  refine ⟨?_, ?_, ?_, ?_⟩
  · rw [c4_run1]
    rfl
  · rw [c4_run2]
    rfl
  · decide
  · rw [c4_run2]
    decide

set_option maxRecDepth 40000 in
/-- Witness for C4 (amended) on a one-step trace whose close is in range:
after the step the offset equals appended-minus-buffered (= 320) and is
monotone into the (absent) next step. -/
theorem c4_offset_conservation_witness :
    traceOk (fun _ _ (r : Unit) => ([], r)) (fun _ => "") initSessionCache ()
      [c4Step1] ∧
    ((runTrace (fun _ _ (r : Unit) => ([], r)) (fun _ => "")
        ([c4Step1].take 1) initSessionCache ()).1.bufferOffsetBytes =
      totalAppended ([c4Step1].take 1) -
        ((runTrace (fun _ _ (r : Unit) => ([], r)) (fun _ => "")
          ([c4Step1].take 1) initSessionCache ()).1.audioBuffer.length : ℤ) ∧
    (runTrace (fun _ _ (r : Unit) => ([], r)) (fun _ => "")
        ([c4Step1].take 1) initSessionCache ()).1.bufferOffsetBytes ≤
      (runTrace (fun _ _ (r : Unit) => ([], r)) (fun _ => "")
        ([c4Step1].take 2) initSessionCache ()).1.bufferOffsetBytes) := by
  have hok : traceOk (fun _ _ (r : Unit) => ([], r)) (fun _ => "")
      initSessionCache () [c4Step1] := by
    refine ⟨?_, trivial⟩
    refine ⟨?_, trivial⟩
    intro h
    left
    have hpy : pyInt ((10 : ℚ) * (BYTES_PER_MS : ℚ)) = 320 := by
      norm_num [pyInt, BYTES_PER_MS]
    show (0 : ℤ) ≤ pyInt ((c4Step1.vadSegs.head!).2 * (BYTES_PER_MS : ℚ)) - _
    rw [show ((c4Step1.vadSegs.head!).2 : ℚ) = 10 from rfl, hpy]
    decide
  exact ⟨hok, c4_offset_conservation (fun _ _ (r : Unit) => ([], r)) (fun _ => "")
    () [c4Step1] 1 hok⟩


/-! ## C3: speaker continuity vs. the decorated `last_speaker` labels -/

/-- Registered embedding of `Speaker_1` in the C3 scenario. -/
noncomputable def e1C3 : Vec 3 := ![0, 1, 0]

/-- Registered embedding of `Speaker_2` in the C3 scenario. -/
noncomputable def e2C3 : Vec 3 := ![0, 0, 1]

/-- The incoming segment embedding: a unit vector close to both profiles
(similarity 3/5 to `Speaker_1`, 16/25 to `Speaker_2`, gap 1/25 < 0.1). -/
noncomputable def embC3 : Vec 3 := ![12/25, 3/5, 16/25]

/-- A two-speaker registry. -/
noncomputable def regC3 : Registry 3 :=
  [("Speaker_1", { embedding := e1C3, gender := "男", count := 1 }),
   ("Speaker_2", { embedding := e2C3, gender := "女", count := 1 })]

theorem npDot_embC3_e1C3 : npDot embC3 e1C3 = 3/5 := by
  simp [npDot, Fin.sum_univ_three, embC3, e1C3]

theorem npDot_embC3_e2C3 : npDot embC3 e2C3 = 16/25 := by
  simp [npDot, Fin.sum_univ_three, embC3, e2C3]

theorem npNorm_e1C3 : npNorm e1C3 = 1 := by
  have h : npDot e1C3 e1C3 = 1 := by
    simp [npDot, Fin.sum_univ_three, e1C3]
  rw [npNorm, h, Real.sqrt_one]

theorem npNorm_e2C3 : npNorm e2C3 = 1 := by
  have h : npDot e2C3 e2C3 = 1 := by
    simp [npDot, Fin.sum_univ_three, e2C3]
  rw [npNorm, h, Real.sqrt_one]

theorem npNorm_embC3 : npNorm embC3 = 1 := by
  have h : npDot embC3 embC3 = 1 := by
    simp [npDot, Fin.sum_univ_three, embC3]
    norm_num
  rw [npNorm, h, Real.sqrt_one]

theorem cos_embC3_e1C3 : cosineSimilarity embC3 e1C3 = 3/5 := by
  rw [cosineSimilarity, if_neg (by rw [npNorm_embC3, npNorm_e1C3]; norm_num),
    npNorm_embC3, npNorm_e1C3, npDot_embC3_e1C3]
  norm_num

theorem cos_embC3_e2C3 : cosineSimilarity embC3 e2C3 = 16/25 := by
  rw [cosineSimilarity, if_neg (by rw [npNorm_embC3, npNorm_e2C3]; norm_num),
    npNorm_embC3, npNorm_e2C3, npDot_embC3_e2C3]
  norm_num

theorem bestSearch_regC3 :
    bestSearch regC3 embC3 = (some "Speaker_2", 16/25, 3/5) := by
  simp only [bestSearch, regC3, List.foldl_cons, List.foldl_nil]
  rw [cos_embC3_e1C3, cos_embC3_e2C3]
  norm_num


theorem continuityAdjust_decorated :
    continuityAdjust regC3 embC3 (some "Speaker_1 (男)") (some "Speaker_2")
      (16/25) = (some "Speaker_2", 16/25) := by
  simp only [continuityAdjust]
  rw [if_pos (by decide : (some "Speaker_2" : Option String) ≠ some "Speaker_1 (男)")]
  rw [show lookupReg regC3 "Speaker_1 (男)" = none from rfl]
  rw [if_neg (by rw [SPEAKER_SIMILARITY_THRESHOLD]; norm_num)]

theorem acceptUpdate_regC3_gender :
    (acceptUpdate regC3 "Speaker_2" embC3).2 = "女" := by
  simp only [acceptUpdate]
  rw [show lookupReg regC3 "Speaker_2" =
    some { embedding := e2C3, gender := "女", count := 1 } from rfl]

/-- C3 (counterexample): the pipeline stores *decorated* labels like
`"Speaker_1 (男)"` in `last_speaker`, but the continuity override looks that
full string up as a registry key; the lookup misses, `prev_score` stays 0,
and the override never fires.  Here the previous speaker's own similarity is
3/5 > 0.35 and the best score 16/25 is within 0.1 of it, yet `resolve`
returns the nominally-best `"Speaker_2 (女)"` instead of the previous
speaker. -/
theorem c3_decorated_label_breaks_continuity :
    updateLastSpeaker none [{ text := "hi", speaker := "Speaker_1 (男)" }] =
      some "Speaker_1 (男)" ∧
    cosineSimilarity embC3 e1C3 > SPEAKER_SIMILARITY_THRESHOLD ∧
    (bestSearch regC3 embC3).1 = some "Speaker_2" ∧
    (bestSearch regC3 embC3).2.1 - cosineSimilarity embC3 e1C3 < 0.1 ∧
    (recognizeSpeaker (fun _ => some embC3) (fun _ => "女")
      (List.replicate 16000 0) (some "Speaker_1 (男)") regC3).1 =
      "Speaker_2 (女)" := by
  refine ⟨rfl, ?_, ?_, ?_, ?_⟩
  · rw [cos_embC3_e1C3, SPEAKER_SIMILARITY_THRESHOLD]; norm_num
  · rw [bestSearch_regC3]
  · rw [bestSearch_regC3, cos_embC3_e1C3]; norm_num
  · simp only [recognizeSpeaker]
    rw [if_neg (by
      simp only [List.length_replicate]
      norm_num [SAMPLE_RATE, MIN_SPEAKER_AUDIO_LEN_SEC, BYTES_PER_SAMPLE])]
    try dsimp only
    rw [bestSearch_regC3]
    try dsimp only
    rw [continuityAdjust_decorated]
    try dsimp only
    rw [if_pos (by rw [SPEAKER_SIMILARITY_THRESHOLD]; norm_num :
      (16/25 : ℝ) > SPEAKER_SIMILARITY_THRESHOLD)]
    try dsimp only
    rw [acceptUpdate_regC3_gender]
    rfl

/-- C3 (amended): the continuity override does hold — including the final
returned label — when the previous speaker is passed as the *bare* registry
id: if the best match differs from previous id `p`, `p` is registered, its
own similarity beats the 0.35 threshold and is within 0.1 of the best
score, then `resolve` returns `p` (decorated with `p`'s gender tag) and
updates `p`'s profile, not the nominally-best match. -/
theorem c3_continuity_bare_id {n : ℕ}
    (spkEmb : List Nat → Option (Vec n)) (genderOf : List Nat → String)
    (audio : List Nat) (reg : Registry n) (p : String)
    (prof : SpeakerProfile n) (emb : Vec n)
    (hlen : ¬ ((audio.length : ℚ) <
      (SAMPLE_RATE : ℚ) * MIN_SPEAKER_AUDIO_LEN_SEC * (BYTES_PER_SAMPLE : ℚ)))
    (hemb : spkEmb audio = some emb)
    (hne : (bestSearch reg emb).1 ≠ some p)
    (hfind : lookupReg reg p = some prof)
    (hprev : cosineSimilarity emb prof.embedding > SPEAKER_SIMILARITY_THRESHOLD)
    (hgap : (bestSearch reg emb).2.1 - cosineSimilarity emb prof.embedding < 0.1) :
    (recognizeSpeaker spkEmb genderOf audio (some p) reg).1 =
      p ++ " (" ++ prof.gender ++ ")" ∧
    (recognizeSpeaker spkEmb genderOf audio (some p) reg).2 =
      (acceptUpdate reg p emb).1 := by
  have hc : continuityAdjust reg emb (some p) (bestSearch reg emb).1
      (bestSearch reg emb).2.1 = (some p, cosineSimilarity emb prof.embedding) := by
    simp only [continuityAdjust]
    rw [if_pos hne, hfind]
    have hcond : cosineSimilarity emb prof.embedding > SPEAKER_SIMILARITY_THRESHOLD ∧
        (bestSearch reg emb).2.1 - cosineSimilarity emb prof.embedding < 0.1 :=
      ⟨hprev, hgap⟩
    rw [if_pos hcond]
  have hu2 : (acceptUpdate reg p emb).2 = prof.gender := by
    simp only [acceptUpdate]
    rw [hfind]
  constructor
  · simp only [recognizeSpeaker]
    rw [if_neg hlen, hemb]
    dsimp only
    rw [hc]
    dsimp only
    rw [if_pos hprev]
    dsimp only
    rw [hu2]
  · simp only [recognizeSpeaker]
    rw [if_neg hlen, hemb]
    dsimp only
    rw [hc]
    dsimp only
    rw [if_pos hprev]

/-- Witness for C3 (amended): with the bare id `"Speaker_1"` as previous
speaker (similarity 3/5, best score 16/25, gap 1/25), `resolve` keeps
`Speaker_1`. -/
theorem c3_continuity_bare_id_witness :
    (recognizeSpeaker (fun _ => some embC3) (fun _ => "女")
      (List.replicate 16000 0) (some "Speaker_1") regC3).1 = "Speaker_1 (男)" := by
  have h := c3_continuity_bare_id (fun _ => some embC3) (fun _ => "女")
    (List.replicate 16000 0) regC3 "Speaker_1"
    { embedding := e1C3, gender := "男", count := 1 } embC3
    (by
      simp only [List.length_replicate]
      norm_num [SAMPLE_RATE, MIN_SPEAKER_AUDIO_LEN_SEC, BYTES_PER_SAMPLE])
    rfl
    (by rw [bestSearch_regC3]; decide)
    rfl
    (by dsimp only; rw [cos_embC3_e1C3, SPEAKER_SIMILARITY_THRESHOLD]; norm_num)
    (by dsimp only; rw [bestSearch_regC3, cos_embC3_e1C3]; norm_num)
  rw [h.1]
  rfl


/-! ## C7: unit-norm invariant of stored speaker embeddings -/

/-- A non-unit candidate embedding (norm 2). -/
noncomputable def e7 : Vec 1 := fun _ => 2

theorem npNorm_e7 : npNorm e7 = 2 := by
  have h : npDot e7 e7 = 4 := by
    simp [npDot, Fin.sum_univ_one, e7]
    norm_num
  rw [npNorm, h, show (4 : ℝ) = 2^2 by norm_num,
    Real.sqrt_sq (by norm_num : (0 : ℝ) ≤ 2)]

/-- C7 (counterexample): registering a brand-new speaker stores the raw
embedding exactly as received — here a vector of norm 2, so the claimed
unit-norm registry invariant fails immediately after registration (only the
accepted-match update path re-normalizes). -/
theorem c7_registration_stores_raw :
    (recognizeSpeaker (fun _ => some e7) (fun _ => "男")
      (List.replicate 16000 0) none ([] : Registry 1)).2 =
      [("Speaker_1", { embedding := e7, gender := "男", count := 1 })] ∧
    npNorm e7 = 2 := by
  constructor
  · simp only [recognizeSpeaker]
    rw [if_neg (by
      simp only [List.length_replicate]
      norm_num [SAMPLE_RATE, MIN_SPEAKER_AUDIO_LEN_SEC, BYTES_PER_SAMPLE])]
    try dsimp only
    rw [show bestSearch ([] : Registry 1) e7 = (none, -1, -1) from rfl]
    try dsimp only
    rw [if_neg (by
      rw [show continuityAdjust ([] : Registry 1) e7 none none (-1) = (none, -1)
        from rfl, SPEAKER_SIMILARITY_THRESHOLD]
      norm_num)]
    rfl
  · exact npNorm_e7

theorem lookupReg_updateReg {n : ℕ} (reg : Registry n) (p : String)
    (prof prof' : SpeakerProfile n) (h : lookupReg reg p = some prof) :
    lookupReg (updateReg reg p prof') p = some prof' := by
  induction reg with
  | nil => simp [lookupReg] at h
  | cons e rest ih =>
    by_cases he : (e.1 == p) = true
    · unfold updateReg
      rw [if_pos he]
      unfold lookupReg
      rw [List.find?_cons_of_pos _ (by simp)]
    · unfold updateReg
      rw [if_neg he]
      unfold lookupReg
      rw [List.find?_cons_of_neg _ (by simp [he])]
      apply ih
      unfold lookupReg at h
      rw [List.find?_cons_of_neg _ (by simp [he])] at h
      exact h

theorem npNorm_normalize {n : ℕ} (v : Vec n) (hnz : npNorm v ≠ 0) :
    npNorm (fun i => v i / npNorm v) = 1 := by
  have hdot0 : 0 ≤ npDot v v := Finset.sum_nonneg fun i _ => mul_self_nonneg _
  have hdnz : npDot v v ≠ 0 := by
    intro h0
    apply hnz
    rw [npNorm, h0, Real.sqrt_zero]
  have hd : npDot (fun i => v i / npNorm v) (fun i => v i / npNorm v) =
      npDot v v / (npNorm v * npNorm v) := by
    unfold npDot
    rw [Finset.sum_div]
    refine Finset.sum_congr rfl fun i _ => ?_
    dsimp only
    rw [div_mul_div_comm]
  have hss : npNorm v * npNorm v = npDot v v := by
    rw [npNorm]
    exact Real.mul_self_sqrt hdot0
  rw [npNorm, hd, hss, div_self hdnz, Real.sqrt_one]

/-- C7 (amended): the *update* path does maintain the invariant — an
accepted match on a registered key `p` stores the adaptive blend
re-normalized to unit length (whenever the blend is non-degenerate) and
increments the sample count. Registration, by contrast, stores the raw
embedding (see the counterexample). -/
theorem c7_update_normalizes {n : ℕ} (reg : Registry n) (p : String)
    (prof : SpeakerProfile n) (emb : Vec n)
    (hfind : lookupReg reg p = some prof)
    (hnz : npNorm (blendEmb prof.count prof.embedding emb) ≠ 0) :
    lookupReg (acceptUpdate reg p emb).1 p = some
      { embedding := fun i => blendEmb prof.count prof.embedding emb i /
          npNorm (blendEmb prof.count prof.embedding emb)
        gender := prof.gender, count := prof.count + 1 } ∧
    npNorm (fun i => blendEmb prof.count prof.embedding emb i /
        npNorm (blendEmb prof.count prof.embedding emb)) = 1 := by
  constructor
  · have ha : (acceptUpdate reg p emb).1 = updateReg reg p
        { embedding := fun i => blendEmb prof.count prof.embedding emb i /
            npNorm (blendEmb prof.count prof.embedding emb)
          gender := prof.gender, count := prof.count + 1 } := by
      simp only [acceptUpdate]
      rw [hfind]
    rw [ha]
    exact lookupReg_updateReg reg p prof _ hfind
  · exact npNorm_normalize _ hnz

/-- The unit history embedding used in the C7 witness. -/
noncomputable def u7 : Vec 1 := fun _ => 1

/-- The single-profile registry used in the C7 witness. -/
noncomputable def reg7 : Registry 1 :=
  [("Speaker_1", { embedding := u7, gender := "男", count := 1 })]

theorem blendEmb_u7 : blendEmb 1 u7 u7 = u7 := by
  funext i
  simp only [blendEmb, u7]
  ring

theorem npNorm_u7 : npNorm u7 = 1 := by
  have h : npDot u7 u7 = 1 := by
    simp [npDot, Fin.sum_univ_one, u7]
  rw [npNorm, h, Real.sqrt_one]

/-- Witness for C7 (amended): updating `Speaker_1` (history `[1]`, count 1)
with the embedding `[1]` stores a unit-norm blend and count 2. -/
theorem c7_update_normalizes_witness :
    lookupReg (acceptUpdate reg7 "Speaker_1" u7).1 "Speaker_1" = some
      { embedding := fun i => blendEmb 1 u7 u7 i / npNorm (blendEmb 1 u7 u7)
        gender := "男", count := 2 } ∧
    npNorm (fun i => blendEmb 1 u7 u7 i / npNorm (blendEmb 1 u7 u7)) = 1 := by
  have h := c7_update_normalizes reg7 "Speaker_1"
    { embedding := u7, gender := "男", count := 1 } u7 rfl
    (by rw [blendEmb_u7, npNorm_u7]; norm_num)
  exact h

end MeetingMind
